import Mathlib

/-!
Verification of the gql GraphQL scanning/lexing/parsing pipeline.

The Go sources are shallowly embedded as follows.

* Sources are modelled at the rune level (`List Char`).  The string-backed
  scanner (`stringScanner`, scanner.go) indexes runes the way the Go code
  indexes bytes; on valid UTF-8 input `utf8.DecodeRuneInString` returns one
  rune per position, so byte arithmetic specialises to rune arithmetic with
  every width equal to 1 (width 0 for the empty remainder).  A separate
  byte-level model (`StrScnB` below) captures the actual byte/UTF-8
  behaviour of `stringScanner.Scan` where that matters.
* Go's `io.EOF` result of `Scan` is the `Bool` component returned next to
  the new scanner state (`false` = io.EOF).  For a string source and for a
  `strings.Reader` stream no other error can occur, so the Go branches that
  propagate a non-EOF scan error are dead and are noted where dropped.
* The parser pulls tokens one at a time from `lexer.Lex`.  Because every
  lexer is deterministic and the first error aborts the whole parse, the
  lazy pull is equivalent to eagerly lexing the whole source into a token
  list terminated either by a repeating EOF token or by the lexical error
  (`lexAll`/`Term` below); the parser (`PState`, `advanceP`) consumes that
  stream in the same order with identical results.
* Loops and recursion use an explicit fuel argument; `PR.more` means the
  fuel ran out and never corresponds to any Go behaviour.
-/

namespace Gql

/-- Errors: `syntaxErr pos msg` models `*errors.SyntaxError{Pos, Err}`
(a rune offset plus a message), `bare msg` models a positionless Go error
built with `errors.New`/`fmt.Errorf`. -/
inductive GErr where
  | syntaxErr : Nat → String → GErr
  | bare : String → GErr
deriving DecidableEq, Repr

/-- Result of a fuelled computation: success, a Go error, or out of fuel. -/
inductive PR (α : Type) where
  | ok : α → PR α
  | err : GErr → PR α
  | more : PR α
deriving DecidableEq, Repr

def PR.bind {α β : Type} : PR α → (α → PR β) → PR β
  | .ok a, f => f a
  | .err e, _ => .err e
  | .more, _ => .more

/-- Token kinds (token.go); `nameK`/`intK`/`floatK`/`strK` are Go's
`Name`/`Int`/`Float`/`String`, `atSign` is Go's `At`. -/
inductive Kind where
  | eof | bang | dollar | parenL | parenR | spread | colon | equals
  | atSign | bracketL | bracketR | braceL | pipe | braceR
  | nameK | intK | floatK | strK
deriving DecidableEq, Repr

/-- Display strings (token.go `kindStrings`). -/
def Kind.str : Kind → String
  | .eof => "EOF"
  | .bang => "!"
  | .dollar => "$"
  | .parenL => "("
  | .parenR => ")"
  | .spread => "..."
  | .colon => ":"
  | .equals => "="
  | .atSign => "@"
  | .bracketL => "["
  | .bracketR => "]"
  | .braceL => "\x7b"
  | .pipe => "|"
  | .braceR => "\x7d"
  | .nameK => "Name"
  | .intK => "Int"
  | .floatK => "Float"
  | .strK => "String"

/-- token.go `RunePunctuators`. -/
def runePunctuators (c : Char) : Option Kind :=
  if c = '!' then some .bang
  else if c = '$' then some .dollar
  else if c = '(' then some .parenL
  else if c = ')' then some .parenR
  else if c = ':' then some .colon
  else if c = '=' then some .equals
  else if c = '@' then some .atSign
  else if c = '[' then some .bracketL
  else if c = ']' then some .bracketR
  else if c = '{' then some .braceL
  else if c = '|' then some .pipe
  else if c = '}' then some .braceR
  else none

/-- token.go `Token`; `endP` is Go's `End`. -/
structure Token where
  kind : Kind
  start : Nat
  endP : Nat
  value : String
deriving DecidableEq, Repr

/-- The zero `token.Token` the parser allocates before each `Lex` call. -/
def zeroToken : Token := { kind := .eof, start := 0, endP := 0, value := "" }

/-- `utf8.RuneError` = U+FFFD. -/
def runeError : Char := Char.ofNat 0xFFFD

/-- The zero rune (Go's zero value for `rune`). -/
def charZero : Char := Char.ofNat 0

def charTAB : Char := Char.ofNat 0x0009
def charBS : Char := Char.ofNat 0x0008
def charFF : Char := Char.ofNat 0x000C
def charLF : Char := Char.ofNat 0x000A
def charCR : Char := Char.ofNat 0x000D
def charSPACE : Char := ' '
def charBOM : Char := Char.ofNat 0xFEFF
def charCOMMA : Char := ','
def charUS : Char := Char.ofNat 0x001F

/-- scanner.go `stringScanner`, at the rune level: `lastIndex`/`lastWidth`
are rune counts (each decoded rune has width 1, the empty remainder decodes
to `(RuneError, 0)` exactly as `utf8.DecodeRuneInString` does). -/
structure StrScn where
  source : List Char
  last : Char
  lastIndex : Nat
  lastWidth : Nat
  tailIndex : Nat
deriving DecidableEq, Repr

def mkStrScn (s : List Char) : StrScn :=
  { source := s, last := charZero, lastIndex := 0, lastWidth := 0, tailIndex := 0 }

/-- `stringScanner.Scan`.  The Go code declares `var n int` but never
assigns it, so its check `s.last == utf8.RuneError && n == 0` degenerates
to `s.last == utf8.RuneError`: the scanner reports `io.EOF` (the `false`
flag) whenever the decoded rune is U+FFFD, including a literal U+FFFD in
the source. -/
def StrScn.scan (s : StrScn) : StrScn × Bool :=
  if s.source.length ≤ s.lastIndex then (s, false)
  else
    let i := s.lastIndex + s.lastWidth
    match s.source.drop i with
    | [] => ({ s with last := runeError, lastIndex := i, lastWidth := 0 }, false)
    | c :: _ => ({ s with last := c, lastIndex := i, lastWidth := 1 }, c ≠ runeError)

/-- `stringScanner.StartTail`. -/
def StrScn.startTail (s : StrScn) : StrScn := { s with tailIndex := s.lastIndex }

/-- `stringScanner.EndTail`: `s.source[s.tailIndex:s.lastIndex]`. -/
def StrScn.endTail (s : StrScn) : StrScn × String :=
  (s, String.mk ((s.source.take s.lastIndex).drop s.tailIndex))

/-- scanner.go `bufferedScanner` over a `strings.Reader`: `source` is the
not-yet-read remainder.  `bufio.Reader.ReadRune` at end of input returns
`(0, 0, io.EOF)`, so `Scan` stores rune 0 and reports `io.EOF`. -/
structure BufScn where
  source : List Char
  last : Char
  tailing : Bool
  tail : List Char
deriving DecidableEq, Repr

def mkBufScn (s : List Char) : BufScn :=
  { source := s, last := charZero, tailing := false, tail := [] }

/-- `bufferedScanner.Scan`: on success the rune is appended to the tail
when tailing; on EOF nothing is appended (the Go code returns before the
`WriteRune`) but `s.last` has already been overwritten with 0. -/
def BufScn.scan (s : BufScn) : BufScn × Bool :=
  match s.source with
  | [] => ({ s with last := charZero }, false)
  | c :: rest =>
    let tl := if s.tailing then s.tail ++ [c] else s.tail
    ({ s with source := rest, last := c, tail := tl }, true)

/-- `bufferedScanner.StartTail`: reset the tail and write the current rune. -/
def BufScn.startTail (s : BufScn) : BufScn :=
  { s with tailing := true, tail := [s.last] }

/-- `bufferedScanner.EndTail`: stop tailing, return the whole buffer
(`t[:len(t)]` is all of `t`). -/
def BufScn.endTail (s : BufScn) : BufScn × String :=
  ({ s with tailing := false }, String.mk s.tail)

/-- The `Scanner` interface with its two implementations. -/
inductive Scn where
  | str : StrScn → Scn
  | buf : BufScn → Scn
deriving DecidableEq, Repr

def Scn.scan : Scn → Scn × Bool
  | .str s => let p := s.scan; (.str p.1, p.2)
  | .buf s => let p := s.scan; (.buf p.1, p.2)

def Scn.rune : Scn → Char
  | .str s => s.last
  | .buf s => s.last

def Scn.startTail : Scn → Scn
  | .str s => .str s.startTail
  | .buf s => .buf s.startTail

def Scn.endTail : Scn → Scn × String
  | .str s => let p := s.endTail; (.str p.1, p.2)
  | .buf s => let p := s.endTail; (.buf p.1, p.2)

/-- lexer.go `lexer`.  The `err` field is omitted: for string and
`strings.Reader` sources the only scan "error" is `io.EOF`, which
`advance` converts into the `eof` flag, so `err` is always nil and
`advance` always "returns true". -/
structure Lexer where
  scn : Scn
  lastIndex : Nat
  eof : Bool
deriving DecidableEq, Repr

/-- `NewLexer`: `lastIndex` starts at -1 and the constructor's `advance`
brings it to 0 (inlined here so the field stays a `Nat`). -/
def mkLexer (s : Scn) : Lexer :=
  let p := s.scan
  { scn := p.1, lastIndex := 0, eof := !p.2 }

/-- `lexer.advance`: scan, convert `io.EOF` into the `eof` flag, and
increment `lastIndex` (the Go code increments whenever the converted error
is nil, i.e. always here). -/
def Lexer.advance (l : Lexer) : Lexer :=
  let p := l.scn.scan
  { scn := p.1, lastIndex := l.lastIndex + 1, eof := l.eof || !p.2 }

def Lexer.rune (l : Lexer) : Char := l.scn.rune

def Lexer.isDigit (l : Lexer) : Bool := '0' ≤ l.rune && l.rune ≤ '9'

def Lexer.isUpperLetter (l : Lexer) : Bool := 'A' ≤ l.rune && l.rune ≤ 'Z'

def Lexer.isLowerLetter (l : Lexer) : Bool := 'a' ≤ l.rune && l.rune ≤ 'z'

mutual

/-- `lexer.advanceToNextToken`, outer loop: skip whitespace and commas,
dispatch `#` comments, stop at the first token character or EOF. -/
def a2t : Nat → Lexer → PR Lexer
  | 0, _ => .more
  | f+1, l =>
    if l.eof then .ok l
    else
      let r := l.rune
      if r = charBOM ∨ r = charTAB ∨ r = charSPACE ∨ r = charLF ∨ r = charCR ∨ r = charCOMMA then
        a2t f l.advance
      else if r = '#' then a2tComment f l
      else .ok l

/-- `lexer.advanceToNextToken`, `#` comment loop: legal comment characters
are tab and anything above U+001F other than LF/CR; the comment terminator
is re-examined by the outer loop. -/
def a2tComment : Nat → Lexer → PR Lexer
  | 0, _ => .more
  | f+1, l =>
    let l' := l.advance
    if l'.eof then .ok l'
    else
      let r := l'.rune
      if r = charTAB ∨ (charUS < r ∧ r ≠ charLF ∧ r ≠ charCR) then a2tComment f l'
      else a2t f l'

end

/-- A name continuation character: `_`, digit, or ASCII letter. -/
def nameRune (r : Char) : Bool :=
  r = '_' || ('0' ≤ r && r ≤ '9') || ('A' ≤ r && r ≤ 'Z') || ('a' ≤ r && r ≤ 'z')

/-- The loop of `lexer.readName`: advance until a non-name rune, then set
`End = lastIndex - 1` and take the scanner tail as the value. -/
def readNameLoop : Nat → Lexer → Token → PR (Token × Lexer)
  | 0, _, _ => .more
  | f+1, l, t =>
    let l' := l.advance
    if nameRune l'.rune then readNameLoop f l' t
    else
      let p := l'.scn.endTail
      .ok ({ t with endP := l'.lastIndex - 1, value := p.2 }, { l' with scn := p.1 })

/-- `lexer.readName`: set the kind, start the tail, loop. -/
def readName (fuel : Nat) (l : Lexer) (t : Token) : PR (Token × Lexer) :=
  readNameLoop fuel { l with scn := l.scn.startTail } { t with kind := .nameK }

/-- `lexer.advanceDigits`: advance past consecutive digits; stops at EOF or
the first non-digit (which stays current). -/
def advanceDigits : Nat → Lexer → PR Lexer
  | 0, _ => .more
  | f+1, l =>
    let l' := l.advance
    if l'.eof || !l'.isDigit then .ok l'
    else advanceDigits f l'

/-- The final lines of `lexer.readNumber`: `t.End = l.lastIndex - 1`,
`t.Value = l.scanner.EndTail()`. -/
def readNumberFin (l : Lexer) (t : Token) : PR (Token × Lexer) :=
  let p := l.scn.endTail
  .ok ({ t with endP := l.lastIndex - 1, value := p.2 }, { l with scn := p.1 })

/-- The exponent stage of `lexer.readNumber` followed by its final lines.
Note the Go code returns nil without setting `End`/`Value` when EOF
immediately follows `E`/`e`. -/
def readNumberExp (fuel : Nat) (l : Lexer) (t : Token) : PR (Token × Lexer) :=
  if l.rune = 'E' ∨ l.rune = 'e' then
    let t := { t with kind := .floatK }
    let l' := l.advance
    if l'.eof then .ok (t, l')
    else if l'.rune = '+' ∨ l'.rune = '-' ∨ l'.isDigit then
      (advanceDigits fuel l').bind fun l'' => readNumberFin l'' t
    else
      .err (.syntaxErr l'.lastIndex
        ("unterminated number; expected sign or digit but found " ++ String.mk [l'.rune]))
  else readNumberFin l t

/-- The decimal stage of `lexer.readNumber`.  Note the Go code returns nil
without setting `End`/`Value` when `advanceDigits` stops at EOF, and never
requires the digit run after `.` to be non-empty. -/
def readNumberDec (fuel : Nat) (l : Lexer) (t : Token) : PR (Token × Lexer) :=
  if l.rune = '.' then
    let t := { t with kind := .floatK }
    (advanceDigits fuel l).bind fun l' =>
      if l'.eof then .ok (t, l')
      else readNumberExp fuel l' t
  else readNumberExp fuel l t

/-- The integer-part stage of `lexer.readNumber`: `0` must be followed by a
non-digit rune (EOF or a digit after `0` are errors); otherwise advance
digits (the current rune is not itself checked to be a digit). -/
def readNumberInt (fuel : Nat) (l : Lexer) (t : Token) : PR (Token × Lexer) :=
  if l.rune = '0' then
    let l' := l.advance
    if l'.eof then
      .err (.syntaxErr l'.lastIndex "invalid number; unexpected EOF following 0")
    else if l'.isDigit then
      .err (.syntaxErr l'.lastIndex
        ("invalid number, unexpected digit after 0: " ++ String.mk [l'.rune]))
    else readNumberDec fuel l' t
  else
    (advanceDigits fuel l).bind fun l' =>
      if l'.eof then readNumberFin l' t
      else readNumberDec fuel l' t

/-- `lexer.readNumber`: start the tail, kind starts as Int, optional sign
(EOF right after `-` is an error), then the staged body. -/
def readNumber (fuel : Nat) (l0 : Lexer) (t0 : Token) : PR (Token × Lexer) :=
  let l := { l0 with scn := l0.scn.startTail }
  let t := { t0 with kind := .intK }
  if l.rune = '-' then
    let l' := l.advance
    if l'.eof then
      .err (.syntaxErr l'.lastIndex "invalid number; unexpected EOF following sign")
    else readNumberInt fuel l' t
  else readNumberInt fuel l t

/-- Hex digit value, as accepted by `hex.DecodeString`. -/
def hexVal (c : Char) : Option Nat :=
  if '0' ≤ c ∧ c ≤ '9' then some (c.toNat - '0'.toNat)
  else if 'a' ≤ c ∧ c ≤ 'f' then some (c.toNat - 'a'.toNat + 10)
  else if 'A' ≤ c ∧ c ≤ 'F' then some (c.toNat - 'A'.toNat + 10)
  else none

/-- Decode 4 hex runes into a 16-bit value (`hex.DecodeString` and
`binary.BigEndian.Uint16`). -/
def hex4 : List Char → Option Nat
  | [a, b, c, d] =>
    match hexVal a, hexVal b, hexVal c, hexVal d with
    | some x, some y, some z, some w => some (x * 4096 + y * 256 + z * 16 + w)
    | _, _, _, _ => none
  | _ => none

/-- The fixed 4-rune read of a `\uXXXX` escape; EOF inside is an error at
the current offset. -/
def readU4 : Nat → Lexer → List Char → PR (List Char × Lexer)
  | 0, l, acc => .ok (acc, l)
  | k+1, l, acc =>
    let l' := l.advance
    if l'.eof then .err (.syntaxErr l'.lastIndex "invalid unicode; unexpected EOF")
    else readU4 k l' (acc ++ [l'.rune])

/-- The single-character escapes of `lexer.readString`'s backslash switch
(`" / \\ b f n r t` map to their literal characters). -/
def escChar (e : Char) : Option Char :=
  if e = '"' then some '"'
  else if e = '/' then some '/'
  else if e = '\\' then some '\\'
  else if e = 'b' then some charBS
  else if e = 'f' then some charFF
  else if e = 'n' then some charLF
  else if e = 'r' then some charCR
  else if e = 't' then some charTAB
  else none

/-- The decoded character of a `\uXXXX` escape: `bytes.Buffer.WriteRune`
writes U+FFFD for an invalid rune, which for a 16-bit value means
surrogates. -/
def uChar (n : Nat) : Char :=
  if 0xD800 ≤ n ∧ n ≤ 0xDFFF then runeError else Char.ofNat n

/-- The loop of `lexer.readString`.  The backslash dispatch does not test
`eof` first: at EOF the scanner's rune (U+FFFD for the string scanner, 0
for the buffered one) hits the default "invalid escape" case exactly as
in Go. -/
def readStringLoop : Nat → Lexer → Token → List Char → PR (Token × Lexer)
  | 0, _, _, _ => .more
  | f+1, l, t, acc =>
    let l' := l.advance
    let r := l'.rune
    if l'.eof ∨ r = charLF ∨ r = charCR then
      .err (.syntaxErr l'.lastIndex ("unterminated string " ++ String.mk acc))
    else if r = '"' then
      .ok ({ t with endP := l'.lastIndex, value := String.mk acc }, l'.advance)
    else if r < charSPACE ∧ r ≠ charTAB then
      .err (.syntaxErr l'.lastIndex "Invalid character within String")
    else if r ≠ '\\' then readStringLoop f l' t (acc ++ [r])
    else
      let l2 := l'.advance
      let e := l2.rune
      match escChar e with
      | some c => readStringLoop f l2 t (acc ++ [c])
      | none =>
        if e = 'u' then
          (readU4 4 l2 []).bind fun p =>
            match hex4 p.1 with
            | none => .err (.syntaxErr p.2.lastIndex "invalid hex byte in unicode escape")
            | some n => readStringLoop f p.2 t (acc ++ [uChar n])
        else .err (.syntaxErr l2.lastIndex ("Invalid character escape sequence: \\" ++ String.mk [e]))

/-- `lexer.readString`. -/
def readString (fuel : Nat) (l : Lexer) (t : Token) : PR (Token × Lexer) :=
  readStringLoop fuel l { t with kind := .strK } []

/-- The `expectDot` closure of `lexer.readSpread`; errors carry the token's
start offset. -/
def expectDot (l : Lexer) (t : Token) : PR Lexer :=
  let l' := l.advance
  if l'.eof then .err (.syntaxErr t.start "unexpected EOF")
  else if l'.rune ≠ '.' then .err (.syntaxErr t.start "unexpected character")
  else .ok l'

/-- `lexer.readSpread`: exactly two more dots, then advance past the third. -/
def readSpread (l : Lexer) (t : Token) : PR (Token × Lexer) :=
  (expectDot l t).bind fun l1 =>
  (expectDot l1 t).bind fun l2 =>
  .ok ({ t with kind := .spread, endP := t.start + 3, value := "..." }, l2.advance)

/-- `lexer.Lex`: skip to the next token, then dispatch on the current rune
exactly as the Go switch ladder does. -/
def lexTok (fuel : Nat) (l0 : Lexer) : PR (Token × Lexer) :=
  (a2t fuel l0).bind fun l =>
  let t : Token := { kind := .eof, start := l.lastIndex, endP := 0, value := "" }
  if l.eof then .ok ({ t with endP := t.start }, l)
  else
    let r := l.rune
    match runePunctuators r with
    | some k => .ok ({ t with kind := k, endP := t.start + 1, value := String.mk [r] }, l.advance)
    | none =>
      if r = '_' ∨ ('A' ≤ r ∧ r ≤ 'Z') ∨ ('a' ≤ r ∧ r ≤ 'z') then readName fuel l t
      else if r = '-' ∨ ('0' ≤ r ∧ r ≤ '9') then readNumber fuel l t
      else if r < charSPACE ∧ r ≠ charTAB ∧ r ≠ charLF ∧ r ≠ charCR then
        .err (.syntaxErr t.start "invalid character")
      else if r = '"' then readString fuel l t
      else if r = '.' then readSpread l t
      else .err (.syntaxErr t.start "unexpected character")

/-- How a finite token stream ends: with a repeating EOF token (further
`Lex` calls return the same EOF token without changing state), with the
lexical error that aborted lexing, or with exhausted fuel. -/
inductive Term where
  | eofRepeat : Token → Term
  | lexErr : GErr → Term
  | fuelOut : Term
deriving DecidableEq, Repr

/-- Eagerly lex the whole source.  Equivalent to the parser's lazy pulls:
tokens are produced in the same order, the first lexical error aborts, and
once the EOF token appears every further pull repeats it. -/
def lexAll : Nat → Lexer → List Token × Term
  | 0, _ => ([], .fuelOut)
  | f+1, l =>
    match lexTok f l with
    | .more => ([], .fuelOut)
    | .err e => ([], .lexErr e)
    | .ok (t, l') =>
      if t.kind = .eof then ([], .eofRepeat t)
      else
        let p := lexAll f l'
        (t :: p.1, p.2)

/-- ast.go `Loc`; `endP` is Go's `End`. -/
structure Loc where
  start : Nat
  endP : Nat
deriving DecidableEq, Repr

/-- ast.go `Name`. -/
structure Name where
  loc : Loc
  value : String
deriving DecidableEq, Repr

/-- Go's zero `Name` value (unnamed operations, absent aliases, absent
type conditions). -/
def zeroName : Name := { loc := { start := 0, endP := 0 }, value := "" }

/-- ast.go `OpType` (Query = 0, the zero value). -/
inductive OpType where
  | query | mutation | subscription
deriving DecidableEq, Repr

/-- ast.go `NamedType` is `type NamedType Name`. -/
abbrev NamedType := Name

mutual

/-- ast.go `Value`: the tagged union of value nodes.  `varV` carries a
`Variable`'s `Loc` and `Name`. -/
inductive Value where
  | intV : Loc → String → Value
  | floatV : Loc → String → Value
  | strV : Loc → String → Value
  | boolV : Loc → Bool → Value
  | enumV : Loc → String → Value
  | listV : Loc → List Value → Value
  | objV : Loc → List ObjectField → Value
  | varV : Loc → Name → Value
deriving Repr

/-- ast.go `ObjectField`. -/
inductive ObjectField where
  | mk : Loc → Name → Value → ObjectField
deriving Repr

end

/-- ast.go `Variable`. -/
structure Variable where
  loc : Loc
  name : Name
deriving Repr

/-- ast.go `Argument`. -/
structure Argument where
  loc : Loc
  name : Name
  value : Value
deriving Repr

/-- ast.go `Directive`. -/
structure Directive where
  loc : Loc
  name : Name
  arguments : List Argument
deriving Repr

/-- ast.go `RefType`: NamedType | ListType | NonNullType. -/
inductive RefType where
  | named : NamedType → RefType
  | listT : Loc → RefType → RefType
  | nonNull : Loc → RefType → RefType
deriving Repr

/-- ast.go `VarDef`; `DefaultValue` is a nilable interface, hence `Option`. -/
structure VarDef where
  loc : Loc
  vari : Variable
  refType : RefType
  defaultValue : Option Value
deriving Repr

mutual

/-- ast.go `SelectionSet`. -/
inductive SelectionSet where
  | mk : Loc → List Selection → SelectionSet
deriving Repr

/-- ast.go `Selection`: Field | FragmentSpread | InlineFragment. -/
inductive Selection where
  | field : Field → Selection
  | fragmentSpread : Loc → Name → List Directive → Selection
  | inlineFragment : Loc → NamedType → List Directive → SelectionSet → Selection
deriving Repr

/-- ast.go `Field`: loc, alias, name, arguments, directives, selection set. -/
inductive Field where
  | mk : Loc → Name → Name → List Argument → List Directive → SelectionSet → Field
deriving Repr

end

/-- Go's zero `SelectionSet` (a field without a nested selection set). -/
def zeroSelSet : SelectionSet := .mk { start := 0, endP := 0 } []

/-- ast.go `OpDef`. -/
structure OpDef where
  loc : Loc
  opType : OpType
  name : Name
  varDefs : List VarDef
  directives : List Directive
  selectionSet : SelectionSet
deriving Repr

/-- ast.go `FragmentDef`. -/
structure FragmentDef where
  loc : Loc
  name : Name
  typeCondition : NamedType
  directives : List Directive
  selectionSet : SelectionSet
deriving Repr

/-- ast.go `InputValueDef`. -/
structure InputValueDef where
  loc : Loc
  name : Name
  refType : RefType
  defaultValue : Option Value
deriving Repr

/-- ast.go `FieldDef`. -/
structure FieldDef where
  loc : Loc
  name : Name
  arguments : List InputValueDef
  refType : RefType
deriving Repr

/-- ast.go `ObjTypeDef`. -/
structure ObjTypeDef where
  loc : Loc
  name : Name
  interfaces : List NamedType
  fieldDefs : List FieldDef
deriving Repr

/-- ast.go `InterfaceTypeDef`. -/
structure InterfaceTypeDef where
  loc : Loc
  name : Name
  fieldDefs : List FieldDef
deriving Repr

/-- ast.go `UnionTypeDef`. -/
structure UnionTypeDef where
  loc : Loc
  name : Name
  namedTypes : List NamedType
deriving Repr

/-- ast.go `ScalarTypeDef`. -/
structure ScalarTypeDef where
  loc : Loc
  name : Name
deriving Repr

/-- ast.go `EnumTypeDef`; `EnumValueDef` is `type EnumValueDef Name`. -/
structure EnumTypeDef where
  loc : Loc
  name : Name
  enumValueDefs : List Name
deriving Repr

/-- ast.go `InputObjTypeDef`. -/
structure InputObjTypeDef where
  loc : Loc
  name : Name
  fields : List InputValueDef
deriving Repr

/-- ast.go `TypeExtDef` is `type TypeExtDef ObjTypeDef`. -/
abbrev TypeExtDef := ObjTypeDef

/-- ast.go `TypeDef`: the tagged union of type-system definitions. -/
inductive TypeDef where
  | obj : ObjTypeDef → TypeDef
  | itf : InterfaceTypeDef → TypeDef
  | uni : UnionTypeDef → TypeDef
  | scalar : ScalarTypeDef → TypeDef
  | enum : EnumTypeDef → TypeDef
  | inputObj : InputObjTypeDef → TypeDef
  | ext : TypeExtDef → TypeDef
deriving Repr

/-- ast.go `Definition`: OperationDefinition | FragmentDefinition |
TypeDefinition. -/
inductive Definition where
  | op : OpDef → Definition
  | frag : FragmentDef → Definition
  | typeD : TypeDef → Definition
deriving Repr

/-- ast.go `Document`. -/
structure Document where
  loc : Loc
  definitions : List Definition
deriving Repr

/-- parser.go `parser` over the eager token stream: `toks` are the not yet
consumed tokens, `term` is how the stream ends, `prevEnd` is the end index
of the previous token, `last` the current token. -/
structure PState where
  toks : List Token
  term : Term
  prevEnd : Nat
  last : Token
deriving DecidableEq, Repr

/-- `parser.advance`: record the previous token's end, pull the next token
(the repeating EOF token once the stream is exhausted, or the lexer's
error). -/
def advanceP (st : PState) : PR PState :=
  let pe := st.last.endP
  match st.toks with
  | t :: rest => .ok { toks := rest, term := st.term, prevEnd := pe, last := t }
  | [] =>
    match st.term with
    | .eofRepeat t => .ok { toks := [], term := st.term, prevEnd := pe, last := t }
    | .lexErr e => .err e
    | .fuelOut => .more

/-- `parser.skip`. -/
def skipT (k : Kind) (st : PState) : PR (Bool × PState) :=
  if st.last.kind = k then (advanceP st).bind fun st' => .ok (true, st')
  else .ok (false, st)

/-- `parser.expect`. -/
def expectT (k : Kind) (st : PState) : PR (Token × PState) :=
  let t := st.last
  if t.kind = k then (advanceP st).bind fun st' => .ok (t, st')
  else .err (.syntaxErr t.start ("expected a " ++ k.str ++ " token but found " ++ t.kind.str))

/-- `parser.expectKeyword`. -/
def expectKw (v : String) (st : PState) : PR (Token × PState) :=
  let t := st.last
  if t.kind = .nameK ∧ t.value = v then (advanceP st).bind fun st' => .ok (t, st')
  else .err (.syntaxErr t.start ("expected keyword name " ++ v ++ " but got " ++ t.value))

/-- `parser.parseName`. -/
def parseNameP (st : PState) : PR (Name × PState) :=
  (expectT .nameK st).bind fun p =>
    .ok ({ loc := { start := p.1.start, endP := p.1.endP }, value := p.1.value }, p.2)

/-- `parser.parseVariable`: `$` then a name, span up to `prevEnd`. -/
def parseVariable (st : PState) : PR (Variable × PState) :=
  let start := st.last.start
  (expectT .dollar st).bind fun p =>
  (parseNameP p.2).bind fun n =>
  .ok ({ loc := { start := start, endP := n.2.prevEnd }, name := n.1 }, n.2)

/-- `parser.parseFragmentName`: any name except `on` (the `UnexpectedOn`
sentinel is wrapped in a SyntaxError). -/
def parseFragmentName (st : PState) : PR (Name × PState) :=
  if st.last.value = "on" then
    .err (.syntaxErr st.last.start "unexpected on value; expected fragment name")
  else parseNameP st

/-- `parser.parseOperation`: note the error is a bare `fmt.Errorf`. -/
def parseOperation (s : String) : PR OpType :=
  if s = "query" then .ok .query
  else if s = "mutation" then .ok .mutation
  else if s = "subscription" then .ok .subscription
  else .err (.bare ("unrecognized operation: " ++ s))

/-- Loop of `parser.any` (zero or more): try the close token first, else
parse one element. -/
def anyLoop {α : Type} (kc : Kind) (p : PState → PR (α × PState)) :
    Nat → PState → List α → PR (List α × PState)
  | 0, _, _ => .more
  | f+1, st, acc =>
    (skipT kc st).bind fun q =>
      if q.1 then .ok (acc, q.2)
      else (p q.2).bind fun r => anyLoop kc p f r.2 (acc ++ [r.1])

/-- `parser.any`. -/
def anyP {α : Type} (ko kc : Kind) (p : PState → PR (α × PState)) (f : Nat)
    (st : PState) : PR (List α × PState) :=
  (expectT ko st).bind fun q => anyLoop kc p f q.2 []

/-- Loop of `parser.many` (one or more): parse an element first, the close
token is only tried after it. -/
def manyLoop {α : Type} (kc : Kind) (p : PState → PR (α × PState)) :
    Nat → PState → List α → PR (List α × PState)
  | 0, _, _ => .more
  | f+1, st, acc =>
    (p st).bind fun r =>
      (skipT kc r.2).bind fun q =>
        if q.1 then .ok (acc ++ [r.1], q.2)
        else manyLoop kc p f q.2 (acc ++ [r.1])

/-- `parser.many`. -/
def manyP {α : Type} (ko kc : Kind) (p : PState → PR (α × PState)) (f : Nat)
    (st : PState) : PR (List α × PState) :=
  (expectT ko st).bind fun q => manyLoop kc p f q.2 []

/-- `parser.parseScalarTypeDef`: `scalar` Name (no recursion). -/
def parseScalarTypeDef (st : PState) : PR (ScalarTypeDef × PState) :=
  let start := st.last.start
  (expectKw "scalar" st).bind fun k =>
  (parseNameP k.2).bind fun n =>
  .ok ({ loc := { start := start, endP := n.2.prevEnd }, name := n.1 }, n.2)

mutual

/-- `parser.parseDocument`. -/
def parseDocument : Nat → PState → PR (Document × PState)
  | 0, _ => .more
  | f+1, st => docLoop f st.last.start [] st

/-- The definition loop of `parser.parseDocument`: parse definitions until
`skip(EOF)` succeeds; the document's end is `prevEnd` after that skip. -/
def docLoop : Nat → Nat → List Definition → PState → PR (Document × PState)
  | 0, _, _, _ => .more
  | f+1, start, defs, st =>
    (parseDefinition f st).bind fun r =>
      (skipT .eof r.2).bind fun q =>
        if q.1 then
          .ok ({ loc := { start := start, endP := q.2.prevEnd },
                 definitions := defs ++ [r.1] }, q.2)
        else docLoop f start (defs ++ [r.1]) q.2

/-- `parser.parseDefinition`: dispatch on the current token. -/
def parseDefinition : Nat → PState → PR (Definition × PState)
  | 0, _ => .more
  | f+1, st =>
    match st.last.kind with
    | .braceL => (parseOpDef f st).bind fun r => .ok (Definition.op r.1, r.2)
    | .nameK =>
      let v := st.last.value
      if v = "query" ∨ v = "mutation" ∨ v = "subscription" then
        (parseOpDef f st).bind fun r => .ok (Definition.op r.1, r.2)
      else if v = "fragment" then
        (parseFragmentDef f st).bind fun r => .ok (Definition.frag r.1, r.2)
      else if v = "type" ∨ v = "interface" ∨ v = "union" ∨ v = "scalar" ∨
          v = "enum" ∨ v = "input" ∨ v = "extend" then
        (parseTypeDef f st).bind fun r => .ok (Definition.typeD r.1, r.2)
      else
        .err (.syntaxErr st.last.start
          ("unexpected name " ++ v ++ "; expected operation, fragment, or type definition"))
    | _ => .err (.syntaxErr st.last.start "unexpected kind; expected BraceL or Name")

/-- `parser.parseOpDef`: a bare selection set is an unnamed Query. -/
def parseOpDef : Nat → PState → PR (OpDef × PState)
  | 0, _ => .more
  | f+1, st =>
    let start := st.last.start
    if st.last.kind = .braceL then
      (parseSelectionSet f st).bind fun r =>
        .ok ({ loc := { start := start, endP := r.2.prevEnd }, opType := .query,
               name := zeroName, varDefs := [], directives := [],
               selectionSet := r.1 }, r.2)
    else
      (expectT .nameK st).bind fun p =>
      (parseOperation p.1.value).bind fun op =>
      (if p.2.last.kind = .nameK then parseNameP p.2 else .ok (zeroName, p.2)).bind fun n =>
      (parseVarDefs f n.2).bind fun v =>
      (parseDirectives f v.2).bind fun d =>
      (parseSelectionSet f d.2).bind fun ss =>
      .ok ({ loc := { start := start, endP := ss.2.prevEnd }, opType := op,
             name := n.1, varDefs := v.1, directives := d.1,
             selectionSet := ss.1 }, ss.2)

/-- `parser.parseVarDefs`: only entered on `(`, one-or-more inside. -/
def parseVarDefs : Nat → PState → PR (List VarDef × PState)
  | 0, _ => .more
  | f+1, st =>
    if st.last.kind = .parenL then manyP .parenL .parenR (parseVarDef f) f st
    else .ok ([], st)

/-- `parser.parseVarDef`. -/
def parseVarDef : Nat → PState → PR (VarDef × PState)
  | 0, _ => .more
  | f+1, st =>
    let start := st.last.start
    (parseVariable st).bind fun v =>
    (expectT .colon v.2).bind fun c =>
    (parseRefType f c.2).bind fun rt =>
    (skipT .equals rt.2).bind fun q =>
    (if q.1 then (parseValueLiteral f true q.2).bind fun w => .ok (some w.1, w.2)
     else .ok ((none : Option Value), q.2)).bind fun dv =>
    .ok ({ loc := { start := start, endP := dv.2.prevEnd }, vari := v.1,
           refType := rt.1, defaultValue := dv.1 }, dv.2)

/-- `parser.parseSelectionSet`: `{` Selection+ `}`. -/
def parseSelectionSet : Nat → PState → PR (SelectionSet × PState)
  | 0, _ => .more
  | f+1, st =>
    let start := st.last.start
    (manyP .braceL .braceR (parseSelection f) f st).bind fun r =>
    .ok (SelectionSet.mk { start := start, endP := r.2.prevEnd } r.1, r.2)

/-- `parser.parseSelection`. -/
def parseSelection : Nat → PState → PR (Selection × PState)
  | 0, _ => .more
  | f+1, st =>
    if st.last.kind = .spread then parseFragment f st
    else (parseField f st).bind fun r => .ok (Selection.field r.1, r.2)

/-- `parser.parseField`: the first name is tentatively an alias, resolved
by whether a `:` follows. -/
def parseField : Nat → PState → PR (Field × PState)
  | 0, _ => .more
  | f+1, st =>
    let start := st.last.start
    (parseNameP st).bind fun n1 =>
    (skipT .colon n1.2).bind fun q =>
    (if q.1 then (parseNameP q.2).bind fun n2 => .ok ((n1.1, n2.1), n2.2)
     else .ok ((zeroName, n1.1), q.2)).bind fun an =>
    (parseArguments f an.2).bind fun args =>
    (parseDirectives f args.2).bind fun ds =>
    (if ds.2.last.kind = .braceL then parseSelectionSet f ds.2
     else .ok (zeroSelSet, ds.2)).bind fun ss =>
    .ok (Field.mk { start := start, endP := ss.2.prevEnd } an.1.1 an.1.2 args.1 ds.1 ss.1,
      ss.2)

/-- `parser.parseArguments`: only entered on `(`, one-or-more inside. -/
def parseArguments : Nat → PState → PR (List Argument × PState)
  | 0, _ => .more
  | f+1, st =>
    if st.last.kind = .parenL then manyP .parenL .parenR (parseArgument f) f st
    else .ok ([], st)

/-- `parser.parseArgument`. -/
def parseArgument : Nat → PState → PR (Argument × PState)
  | 0, _ => .more
  | f+1, st =>
    let start := st.last.start
    (parseNameP st).bind fun n =>
    (expectT .colon n.2).bind fun c =>
    (parseValueLiteral f false c.2).bind fun v =>
    .ok ({ loc := { start := start, endP := v.2.prevEnd }, name := n.1,
           value := v.1 }, v.2)

/-- `parser.parseFragment`: a name other than `on` after `...` is a
fragment spread, otherwise an inline fragment with optional `on` type
condition (the check is on the token's value only). -/
def parseFragment : Nat → PState → PR (Selection × PState)
  | 0, _ => .more
  | f+1, st =>
    let start := st.last.start
    (expectT .spread st).bind fun sp =>
    let st1 := sp.2
    if st1.last.kind = .nameK ∧ st1.last.value ≠ "on" then
      (parseFragmentName st1).bind fun n =>
      (parseDirectives f n.2).bind fun ds =>
      .ok (Selection.fragmentSpread { start := start, endP := ds.2.prevEnd } n.1 ds.1, ds.2)
    else
      (if st1.last.value = "on" then
        (advanceP st1).bind fun st2 => parseNameP st2
       else .ok (zeroName, st1)).bind fun nt =>
      (parseDirectives f nt.2).bind fun ds =>
      (parseSelectionSet f ds.2).bind fun ss =>
      .ok (Selection.inlineFragment { start := start, endP := ss.2.prevEnd } nt.1 ds.1 ss.1,
        ss.2)

/-- `parser.parseFragmentDef`. -/
def parseFragmentDef : Nat → PState → PR (FragmentDef × PState)
  | 0, _ => .more
  | f+1, st =>
    let start := st.last.start
    (expectKw "fragment" st).bind fun k1 =>
    (parseFragmentName k1.2).bind fun n =>
    (expectKw "on" n.2).bind fun k2 =>
    (parseNameP k2.2).bind fun tc =>
    (parseDirectives f tc.2).bind fun ds =>
    (parseSelectionSet f ds.2).bind fun ss =>
    .ok ({ loc := { start := start, endP := ss.2.prevEnd }, name := n.1,
           typeCondition := tc.1, directives := ds.1, selectionSet := ss.1 }, ss.2)

/-- `parser.parseValueLiteral`.  `true`/`false` become Boolean, `null`
falls through to the generic SyntaxError, any other name becomes Enum; `$`
under `isConst` is the bare `errors.New("variable may not be constant")`. -/
def parseValueLiteral : Nat → Bool → PState → PR (Value × PState)
  | 0, _, _ => .more
  | f+1, isConst, st =>
    let lt := st.last
    match lt.kind with
    | .bracketL => parseList f isConst st
    | .braceL => parseObject f isConst st
    | .intK =>
      (advanceP st).bind fun st' =>
        .ok (Value.intV { start := lt.start, endP := st'.prevEnd } lt.value, st')
    | .floatK =>
      (advanceP st).bind fun st' =>
        .ok (Value.floatV { start := lt.start, endP := st'.prevEnd } lt.value, st')
    | .strK =>
      (advanceP st).bind fun st' =>
        .ok (Value.strV { start := lt.start, endP := st'.prevEnd } lt.value, st')
    | .nameK =>
      if lt.value = "true" ∨ lt.value = "false" then
        (advanceP st).bind fun st' =>
          .ok (Value.boolV { start := lt.start, endP := st'.prevEnd } (lt.value = "true"), st')
      else if lt.value ≠ "null" then
        (advanceP st).bind fun st' =>
          .ok (Value.enumV { start := lt.start, endP := st'.prevEnd } lt.value, st')
      else .err (.syntaxErr st.last.start "unexpected kind; expected value")
    | .dollar =>
      if isConst then .err (.bare "variable may not be constant")
      else (parseVariable st).bind fun v => .ok (Value.varV v.1.loc v.1.name, v.2)
    | _ => .err (.syntaxErr st.last.start "unexpected kind; expected value")

/-- `parser.parseList`: `[` Value* `]` (zero-or-more). -/
def parseList : Nat → Bool → PState → PR (Value × PState)
  | 0, _, _ => .more
  | f+1, isConst, st =>
    let start := st.last.start
    (anyP .bracketL .bracketR (parseValueLiteral f isConst) f st).bind fun r =>
    .ok (Value.listV { start := start, endP := r.2.prevEnd } r.1, r.2)

/-- `parser.parseObject`: `{` ObjectField* `}` (zero-or-more). -/
def parseObject : Nat → Bool → PState → PR (Value × PState)
  | 0, _, _ => .more
  | f+1, isConst, st =>
    let start := st.last.start
    (anyP .braceL .braceR (parseObjectField f isConst) f st).bind fun r =>
    .ok (Value.objV { start := start, endP := r.2.prevEnd } r.1, r.2)

/-- `parser.parseObjectField`. -/
def parseObjectField : Nat → Bool → PState → PR (ObjectField × PState)
  | 0, _, _ => .more
  | f+1, isConst, st =>
    let start := st.last.start
    (parseNameP st).bind fun n =>
    (expectT .colon n.2).bind fun c =>
    (parseValueLiteral f isConst c.2).bind fun v =>
    .ok (ObjectField.mk { start := start, endP := v.2.prevEnd } n.1 v.1, v.2)

/-- `parser.parseDirectives`: as long as the current token is `@`. -/
def parseDirectives : Nat → PState → PR (List Directive × PState)
  | 0, _ => .more
  | f+1, st =>
    if st.last.kind = .atSign then
      (parseDirective f st).bind fun d =>
      (parseDirectives f d.2).bind fun ds =>
      .ok (d.1 :: ds.1, ds.2)
    else .ok ([], st)

/-- `parser.parseDirective`. -/
def parseDirective : Nat → PState → PR (Directive × PState)
  | 0, _ => .more
  | f+1, st =>
    let start := st.last.start
    (expectT .atSign st).bind fun a =>
    (parseNameP a.2).bind fun n =>
    (parseArguments f n.2).bind fun args =>
    .ok ({ loc := { start := start, endP := args.2.prevEnd }, name := n.1,
           arguments := args.1 }, args.2)

/-- `parser.parseRefType`: bracketed list type or named type, optionally
wrapped in NonNull by a trailing `!`. -/
def parseRefType : Nat → PState → PR (RefType × PState)
  | 0, _ => .more
  | f+1, st =>
    let start := st.last.start
    (skipT .bracketL st).bind fun q =>
    (if q.1 then
      (parseRefType f q.2).bind fun el =>
      (expectT .bracketR el.2).bind fun b =>
      .ok (RefType.listT { start := start, endP := b.2.prevEnd } el.1, b.2)
     else
      (parseNameP q.2).bind fun n => .ok (RefType.named n.1, n.2)).bind fun t =>
    (skipT .bang t.2).bind fun b =>
    if b.1 then .ok (RefType.nonNull { start := start, endP := b.2.prevEnd } t.1, b.2)
    else .ok (t.1, b.2)

/-- `parser.parseTypeDef`: dispatch on the current token's value. -/
def parseTypeDef : Nat → PState → PR (TypeDef × PState)
  | 0, _ => .more
  | f+1, st =>
    let v := st.last.value
    if v = "type" then
      (parseObjTypeDefCore f st.last.start st).bind fun r => .ok (TypeDef.obj r.1, r.2)
    else if v = "interface" then
      (parseInterfaceTypeDef f st).bind fun r => .ok (TypeDef.itf r.1, r.2)
    else if v = "union" then
      (parseUnionTypeDef f st).bind fun r => .ok (TypeDef.uni r.1, r.2)
    else if v = "scalar" then
      (parseScalarTypeDef st).bind fun r => .ok (TypeDef.scalar r.1, r.2)
    else if v = "enum" then
      (parseEnumTypeDef f st).bind fun r => .ok (TypeDef.enum r.1, r.2)
    else if v = "input" then
      (parseInputObjTypeDef f st).bind fun r => .ok (TypeDef.inputObj r.1, r.2)
    else if v = "extend" then
      (parseTypeExtDef f st).bind fun r => .ok (TypeDef.ext r.1, r.2)
    else .err (.syntaxErr st.last.start ("unrecognized typeDef " ++ v))

/-- `parser.parseObjTypeDef` with the start offset already fixed (the Go
code takes an optional pre-allocated node whose `Start` is set by the
caller for `extend`). -/
def parseObjTypeDefCore : Nat → Nat → PState → PR (ObjTypeDef × PState)
  | 0, _, _ => .more
  | f+1, start, st =>
    (expectKw "type" st).bind fun k =>
    (parseNameP k.2).bind fun n =>
    (parseImplementsInterfaces f n.2).bind fun ii =>
    (anyP .braceL .braceR (parseFieldDefP f) f ii.2).bind fun fd =>
    .ok ({ loc := { start := start, endP := fd.2.prevEnd }, name := n.1,
           interfaces := ii.1, fieldDefs := fd.1 }, fd.2)

/-- `parser.parseImplementsInterfaces`: `implements` then names until `{`
or EOF (no separators). -/
def parseImplementsInterfaces : Nat → PState → PR (List Name × PState)
  | 0, _ => .more
  | f+1, st =>
    if st.last.value = "implements" then
      (advanceP st).bind fun st1 =>
      (parseNameP st1).bind fun n1 =>
      implLoop f [n1.1] n1.2
    else .ok ([], st)

/-- The loop of `parser.parseImplementsInterfaces`. -/
def implLoop : Nat → List Name → PState → PR (List Name × PState)
  | 0, _, _ => .more
  | f+1, acc, st =>
    match st.last.kind with
    | .braceL => .ok (acc, st)
    | .eof => .ok (acc, st)
    | _ => (parseNameP st).bind fun n => implLoop f (acc ++ [n.1]) n.2

/-- `parser.parseFieldDef`. -/
def parseFieldDefP : Nat → PState → PR (FieldDef × PState)
  | 0, _ => .more
  | f+1, st =>
    let start := st.last.start
    (parseNameP st).bind fun n =>
    (parseArgumentsDef f n.2).bind fun args =>
    (expectT .colon args.2).bind fun c =>
    (parseRefType f c.2).bind fun rt =>
    .ok ({ loc := { start := start, endP := rt.2.prevEnd }, name := n.1,
           arguments := args.1, refType := rt.1 }, rt.2)

/-- `parser.parseArgumentsDef`: nothing unless the current token is `(`. -/
def parseArgumentsDef : Nat → PState → PR (List InputValueDef × PState)
  | 0, _ => .more
  | f+1, st =>
    if st.last.kind = .parenL then manyP .parenL .parenR (parseInputValueDef f) f st
    else .ok ([], st)

/-- `parser.parseInputValueDef`. -/
def parseInputValueDef : Nat → PState → PR (InputValueDef × PState)
  | 0, _ => .more
  | f+1, st =>
    let start := st.last.start
    (parseNameP st).bind fun n =>
    (expectT .colon n.2).bind fun c =>
    (parseRefType f c.2).bind fun rt =>
    (skipT .equals rt.2).bind fun q =>
    (if q.1 then (parseValueLiteral f true q.2).bind fun w => .ok (some w.1, w.2)
     else .ok ((none : Option Value), q.2)).bind fun dv =>
    .ok ({ loc := { start := start, endP := dv.2.prevEnd }, name := n.1,
           refType := rt.1, defaultValue := dv.1 }, dv.2)

/-- `parser.parseInterfaceTypeDef`: `interface` Name `{` FieldDef* `}`. -/
def parseInterfaceTypeDef : Nat → PState → PR (InterfaceTypeDef × PState)
  | 0, _ => .more
  | f+1, st =>
    let start := st.last.start
    (expectKw "interface" st).bind fun k =>
    (parseNameP k.2).bind fun n =>
    (anyP .braceL .braceR (parseFieldDefP f) f n.2).bind fun fd =>
    .ok ({ loc := { start := start, endP := fd.2.prevEnd }, name := n.1,
           fieldDefs := fd.1 }, fd.2)

/-- `parser.parseUnionTypeDef`: `union` Name `=` UnionMembers. -/
def parseUnionTypeDef : Nat → PState → PR (UnionTypeDef × PState)
  | 0, _ => .more
  | f+1, st =>
    let start := st.last.start
    (expectKw "union" st).bind fun k =>
    (parseNameP k.2).bind fun n =>
    (expectT .equals n.2).bind fun e =>
    (parseUnionMembers f e.2).bind fun ms =>
    .ok ({ loc := { start := start, endP := ms.2.prevEnd }, name := n.1,
           namedTypes := ms.1 }, ms.2)

/-- `parser.parseUnionMembers`: names separated by `|`. -/
def parseUnionMembers : Nat → PState → PR (List Name × PState)
  | 0, _ => .more
  | f+1, st =>
    (parseNameP st).bind fun n =>
    (skipT .pipe n.2).bind fun q =>
    if q.1 then (parseUnionMembers f q.2).bind fun ms => .ok (n.1 :: ms.1, ms.2)
    else .ok ([n.1], q.2)

/-- `parser.parseEnumTypeDef`: `enum` Name `{` EnumValueDef+ `}`
(one-or-more). -/
def parseEnumTypeDef : Nat → PState → PR (EnumTypeDef × PState)
  | 0, _ => .more
  | f+1, st =>
    let start := st.last.start
    (expectKw "enum" st).bind fun k =>
    (parseNameP k.2).bind fun n =>
    (manyP .braceL .braceR (fun s => parseNameP s) f n.2).bind fun vs =>
    .ok ({ loc := { start := start, endP := vs.2.prevEnd }, name := n.1,
           enumValueDefs := vs.1 }, vs.2)

/-- `parser.parseInputObjTypeDef`: `input` Name `{` InputValueDef* `}`
(zero-or-more). -/
def parseInputObjTypeDef : Nat → PState → PR (InputObjTypeDef × PState)
  | 0, _ => .more
  | f+1, st =>
    let start := st.last.start
    (expectKw "input" st).bind fun k =>
    (parseNameP k.2).bind fun n =>
    (anyP .braceL .braceR (parseInputValueDef f) f n.2).bind fun fd =>
    .ok ({ loc := { start := start, endP := fd.2.prevEnd }, name := n.1,
           fields := fd.1 }, fd.2)

/-- `parser.parseTypeExtDef`: `extend` then an object type definition whose
start is the `extend` token. -/
def parseTypeExtDef : Nat → PState → PR (TypeExtDef × PState)
  | 0, _ => .more
  | f+1, st =>
    let start := st.last.start
    (expectKw "extend" st).bind fun k =>
    parseObjTypeDefCore f start k.2

end

/-- `newParser`'s initial `advance` followed by `parseDocument`. -/
def initParse (fuel : Nat) (p : List Token × Term) : PR (Document × PState) :=
  match p.1 with
  | t :: rest => parseDocument fuel { toks := rest, term := p.2, prevEnd := 0, last := t }
  | [] =>
    match p.2 with
    | .eofRepeat t => parseDocument fuel { toks := [], term := p.2, prevEnd := 0, last := t }
    | .lexErr e => .err e
    | .fuelOut => .more

/-- Fuel for the lexer: each token consumes at least one rune. -/
def lexFuel (n : Nat) : Nat := n + 16

/-- Fuel for the parser: affine bound in the source length (fuel bounds
the depth of nested calls plus loop iterations, each of which consumes at
least one token or fails). -/
def parseFuel (n : Nat) : Nat := 2 * n + 64

/-- `parser.ParseString`. -/
def ParseString (s : String) : PR Document :=
  (initParse (parseFuel s.length)
    (lexAll (lexFuel s.length) (mkLexer (Scn.str (mkStrScn s.data))))).bind fun r =>
  .ok r.1

/-- `parser.ParseReader` over a `strings.Reader` for the same characters. -/
def ParseReader (s : String) : PR Document :=
  (initParse (parseFuel s.length)
    (lexAll (lexFuel s.length) (mkLexer (Scn.buf (mkBufScn s.data))))).bind fun r =>
  .ok r.1

/-- First token of a source string through the string lexer
(`NewStringLexer` + one `Lex` call). -/
def lexFirst (s : String) : PR Token :=
  (lexTok (lexFuel s.length) (mkLexer (Scn.str (mkStrScn s.data)))).bind fun r => .ok r.1

/-- First token of a source through the reader lexer. -/
def lexFirstReader (s : String) : PR Token :=
  (lexTok (lexFuel s.length) (mkLexer (Scn.buf (mkBufScn s.data)))).bind fun r => .ok r.1

/-! ### Byte-level model of `stringScanner.Scan`

The UTF-8 decoding behaviour of `utf8.DecodeRuneInString`: ASCII is one
byte; multi-byte sequences require continuation bytes in the ranges of
Go's `acceptRanges` table; every malformed, truncated or overlong
sequence yields `(RuneError, 1)`; the empty string yields
`(RuneError, 0)`. -/

/-- A UTF-8 continuation byte. -/
def isCont (b : Nat) : Bool := 0x80 ≤ b && b ≤ 0xBF

/-- `utf8.DecodeRuneInString` on a byte list: `(rune, width)`. -/
def utf8Decode : List Nat → Nat × Nat
  | [] => (0xFFFD, 0)
  | b0 :: t0 =>
    if b0 < 0x80 then (b0, 1)
    else if b0 < 0xC2 then (0xFFFD, 1)
    else if b0 ≤ 0xDF then
      match t0 with
      | b1 :: _ =>
        if isCont b1 then ((b0 - 0xC0) * 64 + (b1 - 0x80), 2) else (0xFFFD, 1)
      | [] => (0xFFFD, 1)
    else if b0 ≤ 0xEF then
      let lo := if b0 = 0xE0 then 0xA0 else 0x80
      let hi := if b0 = 0xED then 0x9F else 0xBF
      match t0 with
      | b1 :: t1 =>
        if lo ≤ b1 ∧ b1 ≤ hi then
          match t1 with
          | b2 :: _ =>
            if isCont b2 then
              ((b0 - 0xE0) * 4096 + (b1 - 0x80) * 64 + (b2 - 0x80), 3)
            else (0xFFFD, 1)
          | [] => (0xFFFD, 1)
        else (0xFFFD, 1)
      | [] => (0xFFFD, 1)
    else if b0 ≤ 0xF4 then
      let lo := if b0 = 0xF0 then 0x90 else 0x80
      let hi := if b0 = 0xF4 then 0x8F else 0xBF
      match t0 with
      | b1 :: t1 =>
        if lo ≤ b1 ∧ b1 ≤ hi then
          match t1 with
          | b2 :: t2 =>
            if isCont b2 then
              match t2 with
              | b3 :: _ =>
                if isCont b3 then
                  ((b0 - 0xF0) * 262144 + (b1 - 0x80) * 4096 + (b2 - 0x80) * 64 + (b3 - 0x80), 4)
                else (0xFFFD, 1)
              | [] => (0xFFFD, 1)
            else (0xFFFD, 1)
          | [] => (0xFFFD, 1)
        else (0xFFFD, 1)
      | [] => (0xFFFD, 1)
    else (0xFFFD, 1)

/-- scanner.go `stringScanner` at the byte level: `source` is the raw byte
slice, `lastIndex`/`lastWidth` are byte counts. -/
structure StrScnB where
  source : List Nat
  last : Nat
  lastIndex : Nat
  lastWidth : Nat
deriving DecidableEq, Repr

/-- `stringScanner.Scan`, byte-accurate.  `var n int` in the Go code is
never assigned, so `n == 0` always holds and the error flag (`false` =
io.EOF) is raised exactly when the decoded rune equals `utf8.RuneError` —
which also happens for every invalid byte sequence and for a genuine
U+FFFD character in the source. -/
def StrScnB.scan (s : StrScnB) : StrScnB × Bool :=
  if s.source.length ≤ s.lastIndex then (s, false)
  else
    let i := s.lastIndex + s.lastWidth
    let p := utf8Decode (s.source.drop i)
    ({ s with last := p.1, lastIndex := i, lastWidth := p.2 }, p.1 ≠ 0xFFFD)

def mkStrScnB (s : List Nat) : StrScnB :=
  { source := s, last := 0, lastIndex := 0, lastWidth := 0 }

/-! ### Projections used to state the claims -/

/-- Position of a `SyntaxError` result, if any. -/
def errPos {α : Type} : PR α → Option Nat
  | .err (.syntaxErr p _) => some p
  | _ => none

/-- Whether a result is an error of the `SyntaxError` category. -/
def isSynErr {α : Type} : PR α → Bool
  | .err (.syntaxErr _ _) => true
  | _ => false

/-- Whether a result is a bare, positionless error. -/
def isBareErr {α : Type} : PR α → Bool
  | .err (.bare _) => true
  | _ => false

/-- The names (values) of the top-level fields of the first definition's
selection set, for an operation definition. -/
def firstFieldNames : PR Document → Option (List String)
  | .ok d =>
    match d.definitions with
    | .op o :: _ =>
      match o.selectionSet with
      | .mk _ sels =>
        some (sels.map fun s =>
          match s with
          | .field (.mk _ _ n _ _ _) => n.value
          | _ => "")
    | _ => none
  | _ => none

/-- The field definitions of a first-definition object type. -/
def firstObjFieldDefs : PR Document → Option (List FieldDef)
  | .ok d =>
    match d.definitions with
    | .typeD (.obj o) :: _ => some o.fieldDefs
    | _ => none
  | _ => none

/-- The field definitions of a first-definition interface type. -/
def firstItfFieldDefs : PR Document → Option (List FieldDef)
  | .ok d =>
    match d.definitions with
    | .typeD (.itf o) :: _ => some o.fieldDefs
    | _ => none
  | _ => none

/-- The input fields of a first-definition input object type. -/
def firstInputFields : PR Document → Option (List InputValueDef)
  | .ok d =>
    match d.definitions with
    | .typeD (.inputObj o) :: _ => some o.fields
    | _ => none
  | _ => none

/-- The value of the first argument of the first field of the first
definition. -/
def firstArgValue : PR Document → Option Value
  | .ok d =>
    match d.definitions with
    | .op o :: _ =>
      match o.selectionSet with
      | .mk _ (.field (.mk _ _ _ (a :: _) _ _) :: _) => some a.value
      | _ => none
    | _ => none
  | _ => none

/-- A `SyntaxError`-category error. -/
def isSyn : GErr → Prop
  | .syntaxErr _ _ => True
  | .bare _ => False

/-- Every error of the computation is a `SyntaxError`. -/
def SynErrs {α : Type} (r : PR α) : Prop := ∀ e, r = .err e → isSyn e

/-- An error the amended C3 allows: a SyntaxError, or the single bare
const-variable error. -/
def okBare (e : GErr) : Prop := isSyn e ∨ e = .bare "variable may not be constant"

/-- The stream terminal carries only SyntaxErrors. -/
def TermSyn (st : PState) : Prop := ∀ e, st.term = Term.lexErr e → isSyn e

/-- Postcondition for parser computations returning a value and a state:
every error is allowed by the amended C3, and a success leaves the stream
terminal unchanged. -/
def PostE {α : Type} (st : PState) (r : PR (α × PState)) : Prop :=
  (∀ e, r = .err e → okBare e) ∧ (∀ a st1, r = .ok (a, st1) → st1.term = st.term)

/-- Same, for computations returning only a state. -/
def PostS (st : PState) (r : PR PState) : Prop :=
  (∀ e, r = .err e → okBare e) ∧ (∀ st1, r = .ok st1 → st1.term = st.term)

/-! ### Definitions for the span invariant (C6) -/

/-- Well-formedness of how a token stream ends: the repeating EOF token is
a zero-width token after the previous end and within the source. -/
def TermWf (n pe : Nat) : Term → Prop
  | .eofRepeat t => t.kind = .eof ∧ pe ≤ t.start ∧ t.endP = t.start ∧ t.start ≤ n
  | .lexErr _ => True
  | .fuelOut => True

/-- After a number token with unassigned End (readNumber's early-return at
EOF), the stream is over: only the repeating EOF token (or exhausted fuel)
follows. -/
def StaleTerm (n pe : Nat) : Term → Prop
  | .eofRepeat t => t.kind = .eof ∧ pe ≤ t.start ∧ t.endP = t.start ∧ t.start ≤ n
  | .lexErr _ => False
  | .fuelOut => True

/-- Well-formed token stream over a source of rune length `n`, starting
with previous-end `pe`: tokens sit between `pe` and `n`, are individually
well-spanned and chain (`endP ≤` next `start`), except that the last token
before end-of-input may be an Int/Float token whose `End`/`Value` were
never assigned. -/
def StreamWf (n : Nat) : Nat → List Token → Term → Prop
  | pe, [], tm => TermWf n pe tm
  | pe, t :: rest, tm =>
      pe ≤ t.start ∧ t.start ≤ n ∧ t.endP ≤ n ∧
      ((t.start ≤ t.endP ∧ StreamWf n t.endP rest tm) ∨
       ((t.kind = .intK ∨ t.kind = .floatK) ∧ rest = [] ∧ StaleTerm n t.endP tm))

/-- Scanner-specific position bookkeeping, relative to the source rune
length `n` and the lexer's `lastIndex` `li`: the string scanner's index
matches and its width is 1, the buffered scanner's remaining runes
account for the rest of the source. -/
def ScnRel (n li : Nat) : Scn → Prop
  | .str s => s.source.length = n ∧ s.lastIndex = li ∧ s.lastWidth = 1
  | .buf b => li + 1 + b.source.length = n

/-- Invariant tying a lexer state to the rune length `n` of its source:
`lastIndex` stays within the source, after end-of-input the current rune
can only be U+FFFD (string scanner) or 0 (buffered scanner), and before
end-of-input the scanner-specific position bookkeeping holds. -/
def LexInv (n : Nat) (l : Lexer) : Prop :=
  (l.eof = true → (l.rune = runeError ∨ l.rune = charZero) ∧ l.lastIndex ≤ n) ∧
  (l.eof = false → l.lastIndex < n ∧ ScnRel n l.lastIndex l.scn)

/-- Parser-state invariant: the current token and everything after it form
a well-formed stream continuing from `prevEnd`. -/
def SInv (n : Nat) (st : PState) : Prop :=
  StreamWf n st.prevEnd (st.last :: st.toks) st.term

/-- A parser state at the end of the stream (current token is the
repeating EOF token). -/
def AtEnd (st : PState) : Prop := st.toks = [] ∧ st.last.kind = Kind.eof

/-! ### Bool-valued well-formedness of AST nodes (C6) -/

def locWfB (n : Nat) (lc : Loc) : Bool :=
  decide (lc.start ≤ lc.endP) && decide (lc.endP ≤ n)

def nameWfB (n : Nat) (nm : Name) : Bool := locWfB n nm.loc

mutual

def valueWfB (n : Nat) : Value → Bool
  | .intV lc _ => locWfB n lc
  | .floatV lc _ => locWfB n lc
  | .strV lc _ => locWfB n lc
  | .boolV lc _ => locWfB n lc
  | .enumV lc _ => locWfB n lc
  | .listV lc vs => locWfB n lc && valuesWfB n vs
  | .objV lc fs => locWfB n lc && objFieldsWfB n fs
  | .varV lc nm => locWfB n lc && nameWfB n nm

def valuesWfB (n : Nat) : List Value → Bool
  | [] => true
  | v :: vs => valueWfB n v && valuesWfB n vs

def objFieldsWfB (n : Nat) : List ObjectField → Bool
  | [] => true
  | .mk lc nm v :: fs => locWfB n lc && nameWfB n nm && valueWfB n v && objFieldsWfB n fs

end

def optValueWfB (n : Nat) : Option Value → Bool
  | none => true
  | some v => valueWfB n v

def argWfB (n : Nat) (a : Argument) : Bool :=
  locWfB n a.loc && nameWfB n a.name && valueWfB n a.value

def dirWfB (n : Nat) (d : Directive) : Bool :=
  locWfB n d.loc && nameWfB n d.name && d.arguments.all (argWfB n)

def refTypeWfB (n : Nat) : RefType → Bool
  | .named nm => nameWfB n nm
  | .listT lc t => locWfB n lc && refTypeWfB n t
  | .nonNull lc t => locWfB n lc && refTypeWfB n t

def variableWfB (n : Nat) (v : Variable) : Bool :=
  locWfB n v.loc && nameWfB n v.name

def varDefWfB (n : Nat) (v : VarDef) : Bool :=
  locWfB n v.loc && variableWfB n v.vari && refTypeWfB n v.refType &&
    optValueWfB n v.defaultValue

mutual

def selSetWfB (n : Nat) : SelectionSet → Bool
  | .mk lc sels => locWfB n lc && selsWfB n sels

def selsWfB (n : Nat) : List Selection → Bool
  | [] => true
  | s :: ss => selWfB n s && selsWfB n ss

def selWfB (n : Nat) : Selection → Bool
  | .field fd => fieldWfB n fd
  | .fragmentSpread lc nm ds => locWfB n lc && nameWfB n nm && ds.all (dirWfB n)
  | .inlineFragment lc nt ds ss =>
      locWfB n lc && nameWfB n nt && ds.all (dirWfB n) && selSetWfB n ss

def fieldWfB (n : Nat) : Field → Bool
  | .mk lc al nm args ds ss =>
      locWfB n lc && nameWfB n al && nameWfB n nm && args.all (argWfB n) &&
        ds.all (dirWfB n) && selSetWfB n ss

end

def opDefWfB (n : Nat) (o : OpDef) : Bool :=
  locWfB n o.loc && nameWfB n o.name && o.varDefs.all (varDefWfB n) &&
    o.directives.all (dirWfB n) && selSetWfB n o.selectionSet

def fragmentDefWfB (n : Nat) (f : FragmentDef) : Bool :=
  locWfB n f.loc && nameWfB n f.name && nameWfB n f.typeCondition &&
    f.directives.all (dirWfB n) && selSetWfB n f.selectionSet

def inputValueDefWfB (n : Nat) (i : InputValueDef) : Bool :=
  locWfB n i.loc && nameWfB n i.name && refTypeWfB n i.refType &&
    optValueWfB n i.defaultValue

def fieldDefWfB (n : Nat) (f : FieldDef) : Bool :=
  locWfB n f.loc && nameWfB n f.name && f.arguments.all (inputValueDefWfB n) &&
    refTypeWfB n f.refType

def objTypeDefWfB (n : Nat) (o : ObjTypeDef) : Bool :=
  locWfB n o.loc && nameWfB n o.name && o.interfaces.all (nameWfB n) &&
    o.fieldDefs.all (fieldDefWfB n)

def typeDefWfB (n : Nat) : TypeDef → Bool
  | .obj o => objTypeDefWfB n o
  | .itf o => locWfB n o.loc && nameWfB n o.name && o.fieldDefs.all (fieldDefWfB n)
  | .uni o => locWfB n o.loc && nameWfB n o.name && o.namedTypes.all (nameWfB n)
  | .scalar o => locWfB n o.loc && nameWfB n o.name
  | .enum o => locWfB n o.loc && nameWfB n o.name && o.enumValueDefs.all (nameWfB n)
  | .inputObj o => locWfB n o.loc && nameWfB n o.name && o.fields.all (inputValueDefWfB n)
  | .ext o => objTypeDefWfB n o

def defWfB (n : Nat) : Definition → Bool
  | .op o => opDefWfB n o
  | .frag f => fragmentDefWfB n f
  | .typeD t => typeDefWfB n t

/-- Every node of the document (itself and all descendants) has
`0 ≤ Start ≤ End ≤ n`. -/
def docWfB (n : Nat) (d : Document) : Bool :=
  locWfB n d.loc && d.definitions.all (defWfB n)

/-! ### Theorems -/

@[simp] theorem PR.bind_ok {α β : Type} (a : α) (f : α → PR β) :
    PR.bind (.ok a) f = f a := rfl

@[simp] theorem PR.bind_err {α β : Type} (e : GErr) (f : α → PR β) :
    PR.bind (.err e) f = .err e := rfl

@[simp] theorem PR.bind_more {α β : Type} (f : α → PR β) :
    PR.bind (.more : PR α) f = .more := rfl

theorem synErrs_bind {α β : Type} {x : PR α} {g : α → PR β}
    (hx : SynErrs x) (hg : ∀ a, x = .ok a → SynErrs (g a)) : SynErrs (x.bind g) := by
  intro e he
  cases hxv : x with
  | more => rw [hxv] at he; exact PR.noConfusion he
  | err e' =>
    rw [hxv] at he
    simp only [PR.bind_err, PR.err.injEq] at he
    subst he
    exact hx _ hxv
  | ok a =>
    rw [hxv] at he
    simp only [PR.bind_ok] at he
    exact hg a hxv e he

theorem a2t_synErrs : ∀ (f : Nat),
    (∀ l, SynErrs (a2t f l)) ∧ (∀ l, SynErrs (a2tComment f l)) := by
  intro f
  induction f with
  | zero => exact ⟨fun l e h => PR.noConfusion h, fun l e h => PR.noConfusion h⟩
  | succ f ih =>
    constructor
    · intro l e h
      simp only [a2t] at h
      split at h
      · exact PR.noConfusion h
      · split at h
        · exact ih.1 _ e h
        · split at h
          · exact ih.2 _ e h
          · exact PR.noConfusion h
    · intro l e h
      simp only [a2tComment] at h
      split at h
      · exact PR.noConfusion h
      · split at h
        · exact ih.2 _ e h
        · exact ih.1 _ e h

theorem readNameLoop_synErrs : ∀ (f : Nat) (l : Lexer) (t : Token),
    SynErrs (readNameLoop f l t) := by
  intro f
  induction f with
  | zero => exact fun l t e h => PR.noConfusion h
  | succ f ih =>
    intro l t e h
    simp only [readNameLoop] at h
    split at h
    · exact ih _ _ e h
    · exact PR.noConfusion h

theorem advanceDigits_synErrs : ∀ (f : Nat) (l : Lexer), SynErrs (advanceDigits f l) := by
  intro f
  induction f with
  | zero => exact fun l e h => PR.noConfusion h
  | succ f ih =>
    intro l e h
    simp only [advanceDigits] at h
    split at h
    · exact PR.noConfusion h
    · exact ih _ e h

theorem readNumber_synErrs (f : Nat) (l : Lexer) (t : Token) :
    SynErrs (readNumber f l t) := by
  have hfin : ∀ (l' : Lexer) (t' : Token), SynErrs (readNumberFin l' t') := by
    intro l' t' e h
    exact PR.noConfusion h
  have hexp : ∀ (l' : Lexer) (t' : Token), SynErrs (readNumberExp f l' t') := by
    intro l' t' e h
    simp only [readNumberExp] at h
    split at h
    · split at h
      · exact PR.noConfusion h
      · split at h
        · exact (synErrs_bind (advanceDigits_synErrs f _) (fun a ha => hfin _ _)) e h
        · cases h; trivial
    · exact hfin _ _ e h
  have hdec : ∀ (l' : Lexer) (t' : Token), SynErrs (readNumberDec f l' t') := by
    intro l' t' e h
    simp only [readNumberDec] at h
    split at h
    · refine (synErrs_bind (advanceDigits_synErrs f _) ?_) e h
      intro a ha e' h'
      split at h'
      · exact PR.noConfusion h'
      · exact hexp _ _ e' h'
    · exact hexp _ _ e h
  have hint : ∀ (l' : Lexer) (t' : Token), SynErrs (readNumberInt f l' t') := by
    intro l' t' e h
    simp only [readNumberInt] at h
    split at h
    · split at h
      · cases h; trivial
      · split at h
        · cases h; trivial
        · exact hdec _ _ e h
    · refine (synErrs_bind (advanceDigits_synErrs f _) ?_) e h
      intro a ha e' h'
      split at h'
      · exact hfin _ _ e' h'
      · exact hdec _ _ e' h'
  intro e h
  simp only [readNumber] at h
  split at h
  · split at h
    · cases h; trivial
    · exact hint _ _ e h
  · exact hint _ _ e h

theorem readU4_synErrs : ∀ (k : Nat) (l : Lexer) (acc : List Char),
    SynErrs (readU4 k l acc) := by
  intro k
  induction k with
  | zero => exact fun l acc e h => PR.noConfusion h
  | succ k ih =>
    intro l acc e h
    simp only [readU4] at h
    split at h
    · cases h; trivial
    · exact ih _ _ e h

theorem readStringLoop_synErrs : ∀ (f : Nat) (l : Lexer) (t : Token) (acc : List Char),
    SynErrs (readStringLoop f l t acc) := by
  intro f
  induction f with
  | zero => exact fun l t acc e h => PR.noConfusion h
  | succ f ih =>
    intro l t acc e h
    simp only [readStringLoop] at h
    split at h
    · cases h; trivial
    · split at h
      · exact PR.noConfusion h
      · split at h
        · cases h; trivial
        · split at h
          · exact ih _ _ _ e h
          · split at h
            · exact ih _ _ _ e h
            · split at h
              · refine (synErrs_bind (readU4_synErrs 4 _ []) ?_) e h
                intro a ha e' h'
                split at h'
                · cases h'; trivial
                · exact ih _ _ _ e' h'
              · cases h; trivial

theorem readSpread_synErrs (l : Lexer) (t : Token) : SynErrs (readSpread l t) := by
  have hdot : ∀ (l' : Lexer), SynErrs (expectDot l' t) := by
    intro l' e h
    simp only [expectDot] at h
    split at h
    · cases h; trivial
    · split at h
      · cases h; trivial
      · exact PR.noConfusion h
  intro e h
  simp only [readSpread] at h
  refine (synErrs_bind (hdot l) ?_) e h
  intro a ha
  refine synErrs_bind (hdot a) ?_
  intro b hb e' h'
  exact PR.noConfusion h'

theorem lexTok_synErrs (f : Nat) (l : Lexer) : SynErrs (lexTok f l) := by
  intro e h
  simp only [lexTok] at h
  refine (synErrs_bind ((a2t_synErrs f).1 l) ?_) e h
  intro a ha e' h'
  split at h'
  · exact PR.noConfusion h'
  · split at h'
    · exact PR.noConfusion h'
    · split at h'
      · exact readNameLoop_synErrs f _ _ e' h'
      · split at h'
        · exact readNumber_synErrs f _ _ e' h'
        · split at h'
          · cases h'; trivial
          · split at h'
            · exact readStringLoop_synErrs f _ _ _ e' h'
            · split at h'
              · exact readSpread_synErrs _ _ e' h'
              · cases h'; trivial

theorem lexAll_term_syn : ∀ (f : Nat) (l : Lexer) (e : GErr),
    (lexAll f l).2 = .lexErr e → isSyn e := by
  intro f
  induction f with
  | zero =>
    intro l e h
    simp only [lexAll] at h
    exact Term.noConfusion h
  | succ f ih =>
    intro l e h
    simp only [lexAll] at h
    split at h
    · exact Term.noConfusion h
    · rename_i heq
      cases h
      exact lexTok_synErrs f l _ heq
    · split at h
      · exact Term.noConfusion h
      · exact ih _ e h

theorem TermSyn.of_eq {st st1 : PState} (h : st1.term = st.term) (hs : TermSyn st) :
    TermSyn st1 := fun e he => hs e (h ▸ he)

theorem PostE.more {α : Type} (st : PState) : PostE st (.more : PR (α × PState)) :=
  ⟨fun e h => PR.noConfusion h, fun a st1 h => PR.noConfusion h⟩

theorem PostE.okSame {α : Type} (st : PState) (a : α) : PostE st (.ok (a, st)) :=
  ⟨fun e h => PR.noConfusion h,
   fun b st1 h => by cases h; rfl⟩

theorem PostE.errSyn {α : Type} (st : PState) (p : Nat) (m : String) :
    PostE st (.err (.syntaxErr p m) : PR (α × PState)) :=
  ⟨fun e h => by cases h; exact Or.inl trivial, fun a st1 h => PR.noConfusion h⟩

theorem postE_bind {α β : Type} {st : PState} {x : PR (α × PState)}
    {g : α × PState → PR (β × PState)}
    (hx : PostE st x)
    (hg : ∀ a st1, x = .ok (a, st1) → st1.term = st.term → PostE st1 (g (a, st1))) :
    PostE st (x.bind g) := by
  constructor
  · intro e he
    cases hxv : x with
    | more => rw [hxv] at he; exact PR.noConfusion he
    | err e' =>
      rw [hxv] at he
      simp only [PR.bind_err, PR.err.injEq] at he
      subst he
      exact hx.1 _ hxv
    | ok a =>
      rw [hxv] at he
      simp only [PR.bind_ok] at he
      have hterm := hx.2 a.1 a.2 (by rw [hxv])
      exact (hg a.1 a.2 (by rw [hxv]) hterm).1 e (by rw [← he])
  · intro b st2 he
    cases hxv : x with
    | more => rw [hxv] at he; exact PR.noConfusion he
    | err e' => rw [hxv] at he; exact PR.noConfusion he
    | ok a =>
      rw [hxv] at he
      simp only [PR.bind_ok] at he
      have hterm := hx.2 a.1 a.2 (by rw [hxv])
      have h2 := (hg a.1 a.2 (by rw [hxv]) hterm).2 b st2 (by rw [← he])
      exact h2.trans hterm

theorem postE_bindS {β : Type} {st : PState} {x : PR PState} {g : PState → PR (β × PState)}
    (hx : PostS st x)
    (hg : ∀ st1, x = .ok st1 → st1.term = st.term → PostE st1 (g st1)) :
    PostE st (x.bind g) := by
  constructor
  · intro e he
    cases hxv : x with
    | more => rw [hxv] at he; exact PR.noConfusion he
    | err e' =>
      rw [hxv] at he
      simp only [PR.bind_err, PR.err.injEq] at he
      subst he
      exact hx.1 _ hxv
    | ok a =>
      rw [hxv] at he
      simp only [PR.bind_ok] at he
      have hterm := hx.2 a (by rw [hxv])
      exact (hg a (by rw [hxv]) hterm).1 e (by rw [← he])
  · intro b st2 he
    cases hxv : x with
    | more => rw [hxv] at he; exact PR.noConfusion he
    | err e' => rw [hxv] at he; exact PR.noConfusion he
    | ok a =>
      rw [hxv] at he
      simp only [PR.bind_ok] at he
      have hterm := hx.2 a (by rw [hxv])
      have h2 := (hg a (by rw [hxv]) hterm).2 b st2 (by rw [← he])
      exact h2.trans hterm

/-- `parser.advance` keeps the terminal and only fails with the stream's
(syntactic) lexical error. -/
theorem advanceP_post (st : PState) (h : TermSyn st) : PostS st (advanceP st) := by
  unfold advanceP
  cases st.toks with
  | cons t rest =>
    exact ⟨fun e he => PR.noConfusion he, fun st1 he => by cases he; rfl⟩
  | nil =>
    cases ht : st.term with
    | eofRepeat t =>
      exact ⟨fun e he => PR.noConfusion he, fun st1 he => by cases he; exact ht.symm ▸ rfl⟩
    | lexErr e =>
      refine ⟨fun e' he => ?_, fun st1 he => PR.noConfusion he⟩
      cases he
      exact Or.inl (h _ ht)
    | fuelOut =>
      exact ⟨fun e he => PR.noConfusion he, fun st1 he => PR.noConfusion he⟩

theorem skipT_post (k : Kind) (st : PState) (h : TermSyn st) : PostE st (skipT k st) := by
  simp only [skipT]
  split
  · exact postE_bindS (advanceP_post st h) (fun st1 _ _ => PostE.okSame st1 true)
  · exact PostE.okSame st false

theorem expectT_post (k : Kind) (st : PState) (h : TermSyn st) : PostE st (expectT k st) := by
  simp only [expectT]
  split
  · exact postE_bindS (advanceP_post st h) (fun st1 _ _ => PostE.okSame st1 st.last)
  · exact PostE.errSyn st _ _

theorem expectKw_post (v : String) (st : PState) (h : TermSyn st) : PostE st (expectKw v st) := by
  simp only [expectKw]
  split
  · exact postE_bindS (advanceP_post st h) (fun st1 _ _ => PostE.okSame st1 st.last)
  · exact PostE.errSyn st _ _

theorem parseNameP_post (st : PState) (h : TermSyn st) : PostE st (parseNameP st) := by
  simp only [parseNameP]
  exact postE_bind (expectT_post .nameK st h) (fun a st1 _ _ => PostE.okSame st1 _)

theorem PostE.errBareConst {α : Type} (st : PState) :
    PostE st (.err (.bare "variable may not be constant") : PR (α × PState)) :=
  ⟨fun e h => by cases h; exact Or.inr rfl, fun a st1 h => PR.noConfusion h⟩

theorem parseVariable_post (st : PState) (h : TermSyn st) : PostE st (parseVariable st) := by
  simp only [parseVariable]
  refine postE_bind (expectT_post .dollar st h) (fun a st1 _ ht1 => ?_)
  have hts1 := TermSyn.of_eq ht1 h
  exact postE_bind (parseNameP_post st1 hts1) (fun b st2 _ _ => PostE.okSame st2 _)

theorem parseFragmentName_post (st : PState) (h : TermSyn st) :
    PostE st (parseFragmentName st) := by
  simp only [parseFragmentName]
  split
  · exact PostE.errSyn st _ _
  · exact parseNameP_post st h

theorem parseScalarTypeDef_post (st : PState) (h : TermSyn st) :
    PostE st (parseScalarTypeDef st) := by
  simp only [parseScalarTypeDef]
  refine postE_bind (expectKw_post "scalar" st h) (fun a st1 _ ht1 => ?_)
  have hts1 := TermSyn.of_eq ht1 h
  exact postE_bind (parseNameP_post st1 hts1) (fun b st2 _ _ => PostE.okSame st2 _)

theorem expectT_ok_tok {k : Kind} {st : PState} {a : Token} {st1 : PState}
    (h : expectT k st = .ok (a, st1)) : a = st.last ∧ st.last.kind = k := by
  simp only [expectT] at h
  split at h
  · rename_i hk
    cases hav : advanceP st with
    | more => rw [hav] at h; exact PR.noConfusion h
    | err e => rw [hav] at h; exact PR.noConfusion h
    | ok s2 =>
      rw [hav] at h
      simp only [PR.bind_ok, PR.ok.injEq, Prod.mk.injEq] at h
      exact ⟨h.1.symm, hk⟩
  · exact PR.noConfusion h

theorem anyLoop_post {α : Type} (kc : Kind) (p : PState → PR (α × PState))
    (hp : ∀ st, TermSyn st → PostE st (p st)) :
    ∀ (f : Nat) (st : PState) (acc : List α), TermSyn st → PostE st (anyLoop kc p f st acc) := by
  intro f
  induction f with
  | zero => intro st acc _; exact PostE.more st
  | succ f ih =>
    intro st acc h
    simp only [anyLoop]
    refine postE_bind (skipT_post kc st h) (fun b st1 _ ht => ?_)
    have h1 : TermSyn st1 := TermSyn.of_eq ht h
    dsimp only
    split
    · exact PostE.okSame st1 acc
    · refine postE_bind (hp st1 h1) (fun a st2 _ ht2 => ?_)
      exact ih st2 (acc ++ [a]) (TermSyn.of_eq ht2 h1)

theorem manyLoop_post {α : Type} (kc : Kind) (p : PState → PR (α × PState))
    (hp : ∀ st, TermSyn st → PostE st (p st)) :
    ∀ (f : Nat) (st : PState) (acc : List α), TermSyn st → PostE st (manyLoop kc p f st acc) := by
  intro f
  induction f with
  | zero => intro st acc _; exact PostE.more st
  | succ f ih =>
    intro st acc h
    simp only [manyLoop]
    refine postE_bind (hp st h) (fun a st1 _ ht => ?_)
    have h1 : TermSyn st1 := TermSyn.of_eq ht h
    refine postE_bind (skipT_post kc st1 h1) (fun b st2 _ ht2 => ?_)
    have h2 : TermSyn st2 := TermSyn.of_eq ht2 h1
    dsimp only
    split
    · exact PostE.okSame st2 _
    · exact ih st2 (acc ++ [a]) h2

theorem anyP_post {α : Type} (ko kc : Kind) (p : PState → PR (α × PState))
    (hp : ∀ st, TermSyn st → PostE st (p st)) (f : Nat) (st : PState) (h : TermSyn st) :
    PostE st (anyP ko kc p f st) := by
  simp only [anyP]
  refine postE_bind (expectT_post ko st h) (fun a st1 _ ht => ?_)
  exact anyLoop_post kc p hp f st1 [] (TermSyn.of_eq ht h)

theorem manyP_post {α : Type} (ko kc : Kind) (p : PState → PR (α × PState))
    (hp : ∀ st, TermSyn st → PostE st (p st)) (f : Nat) (st : PState) (h : TermSyn st) :
    PostE st (manyP ko kc p f st) := by
  simp only [manyP]
  refine postE_bind (expectT_post ko st h) (fun a st1 _ ht => ?_)
  exact manyLoop_post kc p hp f st1 [] (TermSyn.of_eq ht h)

set_option maxHeartbeats 3200000 in
/-- Master error-taxonomy induction: every parser rule, run on a stream
whose terminal error (if any) is a SyntaxError, either succeeds (keeping
the terminal), runs out of fuel, or fails with a SyntaxError or the single
bare const-variable error. -/
theorem parser_postE : ∀ f : Nat,
    (∀ st, TermSyn st → PostE st (parseDocument f st)) ∧
    (∀ start defs st, TermSyn st → PostE st (docLoop f start defs st)) ∧
    (∀ st, TermSyn st → PostE st (parseDefinition f st)) ∧
    (∀ st, TermSyn st →
      (st.last.kind = .braceL ∨ st.last.value = "query" ∨ st.last.value = "mutation" ∨
        st.last.value = "subscription") → PostE st (parseOpDef f st)) ∧
    (∀ st, TermSyn st → PostE st (parseVarDefs f st)) ∧
    (∀ st, TermSyn st → PostE st (parseVarDef f st)) ∧
    (∀ st, TermSyn st → PostE st (parseSelectionSet f st)) ∧
    (∀ st, TermSyn st → PostE st (parseSelection f st)) ∧
    (∀ st, TermSyn st → PostE st (parseField f st)) ∧
    (∀ st, TermSyn st → PostE st (parseArguments f st)) ∧
    (∀ st, TermSyn st → PostE st (parseArgument f st)) ∧
    (∀ st, TermSyn st → PostE st (parseFragment f st)) ∧
    (∀ st, TermSyn st → PostE st (parseFragmentDef f st)) ∧
    (∀ c st, TermSyn st → PostE st (parseValueLiteral f c st)) ∧
    (∀ c st, TermSyn st → PostE st (parseList f c st)) ∧
    (∀ c st, TermSyn st → PostE st (parseObject f c st)) ∧
    (∀ c st, TermSyn st → PostE st (parseObjectField f c st)) ∧
    (∀ st, TermSyn st → PostE st (parseDirectives f st)) ∧
    (∀ st, TermSyn st → PostE st (parseDirective f st)) ∧
    (∀ st, TermSyn st → PostE st (parseRefType f st)) ∧
    (∀ st, TermSyn st → PostE st (parseTypeDef f st)) ∧
    (∀ s0 st, TermSyn st → PostE st (parseObjTypeDefCore f s0 st)) ∧
    (∀ st, TermSyn st → PostE st (parseImplementsInterfaces f st)) ∧
    (∀ acc st, TermSyn st → PostE st (implLoop f acc st)) ∧
    (∀ st, TermSyn st → PostE st (parseFieldDefP f st)) ∧
    (∀ st, TermSyn st → PostE st (parseArgumentsDef f st)) ∧
    (∀ st, TermSyn st → PostE st (parseInputValueDef f st)) ∧
    (∀ st, TermSyn st → PostE st (parseInterfaceTypeDef f st)) ∧
    (∀ st, TermSyn st → PostE st (parseUnionTypeDef f st)) ∧
    (∀ st, TermSyn st → PostE st (parseUnionMembers f st)) ∧
    (∀ st, TermSyn st → PostE st (parseEnumTypeDef f st)) ∧
    (∀ st, TermSyn st → PostE st (parseInputObjTypeDef f st)) ∧
    (∀ st, TermSyn st → PostE st (parseTypeExtDef f st)) := by
  intro f
  induction f with
  | zero =>
    refine ⟨fun st _ => PostE.more st, fun s0 d st _ => PostE.more st, fun st _ => PostE.more st,
      fun st _ _ => PostE.more st, fun st _ => PostE.more st, fun st _ => PostE.more st,
      fun st _ => PostE.more st, fun st _ => PostE.more st, fun st _ => PostE.more st,
      fun st _ => PostE.more st, fun st _ => PostE.more st, fun st _ => PostE.more st,
      fun st _ => PostE.more st, fun c st _ => PostE.more st, fun c st _ => PostE.more st,
      fun c st _ => PostE.more st, fun c st _ => PostE.more st, fun st _ => PostE.more st,
      fun st _ => PostE.more st, fun st _ => PostE.more st, fun st _ => PostE.more st,
      fun s0 st _ => PostE.more st, fun st _ => PostE.more st, fun a st _ => PostE.more st,
      fun st _ => PostE.more st, fun st _ => PostE.more st, fun st _ => PostE.more st,
      fun st _ => PostE.more st, fun st _ => PostE.more st, fun st _ => PostE.more st,
      fun st _ => PostE.more st, fun st _ => PostE.more st, fun st _ => PostE.more st⟩
  | succ f ih =>
    obtain ⟨ihDoc, ihDocLoop, ihDef, ihOpDef, ihVarDefs, ihVarDef, ihSelSet, ihSel, ihField,
      ihArgs, ihArg, ihFrag, ihFragDef, ihVal, ihList, ihObj, ihObjField, ihDirs, ihDir,
      ihRefType, ihTypeDef, ihObjCore, ihImpl, ihImplLoop, ihFieldDef, ihArgsDef, ihInputVal,
      ihItf, ihUnion, ihUnionMembers, ihEnum, ihInputObj, ihExt⟩ := ih
    refine ⟨?_, ?_, ?_, ?_, ?_, ?_, ?_, ?_, ?_, ?_, ?_, ?_, ?_, ?_, ?_, ?_, ?_, ?_, ?_, ?_,
      ?_, ?_, ?_, ?_, ?_, ?_, ?_, ?_, ?_, ?_, ?_, ?_, ?_⟩
    -- parseDocument
    · intro st hts
      simp only [parseDocument]
      exact ihDocLoop st.last.start [] st hts
    -- docLoop
    · intro s0 defs st hts
      simp only [docLoop]
      refine postE_bind (ihDef st hts) (fun d st1 _ ht1 => ?_)
      have h1 := TermSyn.of_eq ht1 hts
      refine postE_bind (skipT_post .eof st1 h1) (fun q st2 _ ht2 => ?_)
      have h2 := TermSyn.of_eq ht2 h1
      dsimp only
      split
      · exact PostE.okSame st2 _
      · exact ihDocLoop s0 (defs ++ [d]) st2 h2
    -- parseDefinition
    · intro st hts
      simp only [parseDefinition]
      split
      · rename_i hk
        exact postE_bind (ihOpDef st hts (Or.inl hk)) (fun a st1 _ _ => PostE.okSame st1 _)
      · split
        · rename_i hv
          exact postE_bind (ihOpDef st hts (Or.inr hv)) (fun a st1 _ _ => PostE.okSame st1 _)
        · split
          · exact postE_bind (ihFragDef st hts) (fun a st1 _ _ => PostE.okSame st1 _)
          · split
            · exact postE_bind (ihTypeDef st hts) (fun a st1 _ _ => PostE.okSame st1 _)
            · exact PostE.errSyn st _ _
      · exact PostE.errSyn st _ _
    -- parseOpDef
    · intro st hts hpre
      simp only [parseOpDef]
      split
      · exact postE_bind (ihSelSet st hts) (fun a st1 _ _ => PostE.okSame st1 _)
      · rename_i hnb
        refine postE_bind (expectT_post .nameK st hts) (fun p st1 hok ht1 => ?_)
        have h1 := TermSyn.of_eq ht1 hts
        have hp1 : p = st.last := (expectT_ok_tok hok).1
        have hv : st.last.value = "query" ∨ st.last.value = "mutation" ∨
            st.last.value = "subscription" := by
          rcases hpre with h | h
          · exact absurd h hnb
          · exact h
        dsimp only
        have hop : ∀ {β : Type} (g : OpType → PR (β × PState)),
            (∀ o, PostE st1 (g o)) → PostE st1 ((parseOperation p.value).bind g) := by
          intro β g hg
          subst hp1
          rcases hv with h | h | h <;> rw [h] <;> exact hg _
        refine hop _ (fun op => ?_)
        refine postE_bind ?_ (fun n st2 _ ht2 => ?_)
        · split
          · exact parseNameP_post st1 h1
          · exact PostE.okSame st1 _
        · have h2 := TermSyn.of_eq ht2 h1
          refine postE_bind (ihVarDefs st2 h2) (fun v st3 _ ht3 => ?_)
          have h3 := TermSyn.of_eq ht3 h2
          refine postE_bind (ihDirs st3 h3) (fun d st4 _ ht4 => ?_)
          have h4 := TermSyn.of_eq ht4 h3
          refine postE_bind (ihSelSet st4 h4) (fun ss st5 _ _ => PostE.okSame st5 _)
    -- parseVarDefs
    · intro st hts
      simp only [parseVarDefs]
      split
      · exact manyP_post _ _ _ (fun s h => ihVarDef s h) f st hts
      · exact PostE.okSame st _
    -- parseVarDef
    · intro st hts
      simp only [parseVarDef]
      refine postE_bind (parseVariable_post st hts) (fun v st1 _ ht1 => ?_)
      have h1 := TermSyn.of_eq ht1 hts
      refine postE_bind (expectT_post .colon st1 h1) (fun c st2 _ ht2 => ?_)
      have h2 := TermSyn.of_eq ht2 h1
      refine postE_bind (ihRefType st2 h2) (fun rt st3 _ ht3 => ?_)
      have h3 := TermSyn.of_eq ht3 h2
      refine postE_bind (skipT_post .equals st3 h3) (fun q st4 _ ht4 => ?_)
      have h4 := TermSyn.of_eq ht4 h3
      dsimp only
      refine postE_bind ?_ (fun dv st5 _ _ => PostE.okSame st5 _)
      split
      · exact postE_bind (ihVal true st4 h4) (fun w st5 _ _ => PostE.okSame st5 _)
      · exact PostE.okSame st4 _
    -- parseSelectionSet
    · intro st hts
      simp only [parseSelectionSet]
      refine postE_bind (manyP_post _ _ _ (fun s h => ihSel s h) f st hts)
        (fun r st1 _ _ => PostE.okSame st1 _)
    -- parseSelection
    · intro st hts
      simp only [parseSelection]
      split
      · exact ihFrag st hts
      · exact postE_bind (ihField st hts) (fun a st1 _ _ => PostE.okSame st1 _)
    -- parseField
    · intro st hts
      simp only [parseField]
      refine postE_bind (parseNameP_post st hts) (fun n1 st1 _ ht1 => ?_)
      have h1 := TermSyn.of_eq ht1 hts
      refine postE_bind (skipT_post .colon st1 h1) (fun q st2 _ ht2 => ?_)
      have h2 := TermSyn.of_eq ht2 h1
      dsimp only
      refine postE_bind ?_ (fun an st3 _ ht3 => ?_)
      · split
        · exact postE_bind (parseNameP_post st2 h2) (fun n2 st3 _ _ => PostE.okSame st3 _)
        · exact PostE.okSame st2 _
      · have h3 := TermSyn.of_eq ht3 h2
        refine postE_bind (ihArgs st3 h3) (fun args st4 _ ht4 => ?_)
        have h4 := TermSyn.of_eq ht4 h3
        refine postE_bind (ihDirs st4 h4) (fun ds st5 _ ht5 => ?_)
        have h5 := TermSyn.of_eq ht5 h4
        dsimp only
        refine postE_bind ?_ (fun ss st6 _ _ => PostE.okSame st6 _)
        split
        · exact ihSelSet st5 h5
        · exact PostE.okSame st5 _
    -- parseArguments
    · intro st hts
      simp only [parseArguments]
      split
      · exact manyP_post _ _ _ (fun s h => ihArg s h) f st hts
      · exact PostE.okSame st _
    -- parseArgument
    · intro st hts
      simp only [parseArgument]
      refine postE_bind (parseNameP_post st hts) (fun n st1 _ ht1 => ?_)
      have h1 := TermSyn.of_eq ht1 hts
      refine postE_bind (expectT_post .colon st1 h1) (fun c st2 _ ht2 => ?_)
      have h2 := TermSyn.of_eq ht2 h1
      refine postE_bind (ihVal false st2 h2) (fun v st3 _ _ => PostE.okSame st3 _)
    -- parseFragment
    · intro st hts
      simp only [parseFragment]
      refine postE_bind (expectT_post .spread st hts) (fun sp st1 _ ht1 => ?_)
      have h1 := TermSyn.of_eq ht1 hts
      dsimp only
      split
      · refine postE_bind (parseFragmentName_post st1 h1) (fun n st2 _ ht2 => ?_)
        have h2 := TermSyn.of_eq ht2 h1
        refine postE_bind (ihDirs st2 h2) (fun ds st3 _ _ => PostE.okSame st3 _)
      · refine postE_bind ?_ (fun nt st2 _ ht2 => ?_)
        · split
          · refine postE_bindS (advanceP_post st1 h1) (fun st2 _ ht2 => ?_)
            exact parseNameP_post st2 (TermSyn.of_eq ht2 h1)
          · exact PostE.okSame st1 _
        · have h2 := TermSyn.of_eq ht2 h1
          refine postE_bind (ihDirs st2 h2) (fun ds st3 _ ht3 => ?_)
          have h3 := TermSyn.of_eq ht3 h2
          refine postE_bind (ihSelSet st3 h3) (fun ss st4 _ _ => PostE.okSame st4 _)
    -- parseFragmentDef
    · intro st hts
      simp only [parseFragmentDef]
      refine postE_bind (expectKw_post "fragment" st hts) (fun k1 st1 _ ht1 => ?_)
      have h1 := TermSyn.of_eq ht1 hts
      refine postE_bind (parseFragmentName_post st1 h1) (fun n st2 _ ht2 => ?_)
      have h2 := TermSyn.of_eq ht2 h1
      refine postE_bind (expectKw_post "on" st2 h2) (fun k2 st3 _ ht3 => ?_)
      have h3 := TermSyn.of_eq ht3 h2
      refine postE_bind (parseNameP_post st3 h3) (fun tc st4 _ ht4 => ?_)
      have h4 := TermSyn.of_eq ht4 h3
      refine postE_bind (ihDirs st4 h4) (fun ds st5 _ ht5 => ?_)
      have h5 := TermSyn.of_eq ht5 h4
      refine postE_bind (ihSelSet st5 h5) (fun ss st6 _ _ => PostE.okSame st6 _)
    -- parseValueLiteral
    · intro c st hts
      simp only [parseValueLiteral]
      split
      · exact ihList c st hts
      · exact ihObj c st hts
      · exact postE_bindS (advanceP_post st hts) (fun st1 _ _ => PostE.okSame st1 _)
      · exact postE_bindS (advanceP_post st hts) (fun st1 _ _ => PostE.okSame st1 _)
      · exact postE_bindS (advanceP_post st hts) (fun st1 _ _ => PostE.okSame st1 _)
      · split
        · exact postE_bindS (advanceP_post st hts) (fun st1 _ _ => PostE.okSame st1 _)
        · split
          · exact postE_bindS (advanceP_post st hts) (fun st1 _ _ => PostE.okSame st1 _)
          · exact PostE.errSyn st _ _
      · split
        · exact PostE.errBareConst st
        · exact postE_bind (parseVariable_post st hts) (fun v st1 _ _ => PostE.okSame st1 _)
      · exact PostE.errSyn st _ _
    -- parseList
    · intro c st hts
      simp only [parseList]
      refine postE_bind (anyP_post _ _ _ (fun s h => ihVal c s h) f st hts)
        (fun r st1 _ _ => PostE.okSame st1 _)
    -- parseObject
    · intro c st hts
      simp only [parseObject]
      refine postE_bind (anyP_post _ _ _ (fun s h => ihObjField c s h) f st hts)
        (fun r st1 _ _ => PostE.okSame st1 _)
    -- parseObjectField
    · intro c st hts
      simp only [parseObjectField]
      refine postE_bind (parseNameP_post st hts) (fun n st1 _ ht1 => ?_)
      have h1 := TermSyn.of_eq ht1 hts
      refine postE_bind (expectT_post .colon st1 h1) (fun co st2 _ ht2 => ?_)
      have h2 := TermSyn.of_eq ht2 h1
      refine postE_bind (ihVal c st2 h2) (fun v st3 _ _ => PostE.okSame st3 _)
    -- parseDirectives
    · intro st hts
      simp only [parseDirectives]
      split
      · refine postE_bind (ihDir st hts) (fun d st1 _ ht1 => ?_)
        have h1 := TermSyn.of_eq ht1 hts
        refine postE_bind (ihDirs st1 h1) (fun ds st2 _ _ => PostE.okSame st2 _)
      · exact PostE.okSame st _
    -- parseDirective
    · intro st hts
      simp only [parseDirective]
      refine postE_bind (expectT_post .atSign st hts) (fun a st1 _ ht1 => ?_)
      have h1 := TermSyn.of_eq ht1 hts
      refine postE_bind (parseNameP_post st1 h1) (fun n st2 _ ht2 => ?_)
      have h2 := TermSyn.of_eq ht2 h1
      refine postE_bind (ihArgs st2 h2) (fun args st3 _ _ => PostE.okSame st3 _)
    -- parseRefType
    · intro st hts
      simp only [parseRefType]
      refine postE_bind (skipT_post .bracketL st hts) (fun q st1 _ ht1 => ?_)
      have h1 := TermSyn.of_eq ht1 hts
      dsimp only
      refine postE_bind ?_ (fun t st2 _ ht2 => ?_)
      · split
        · refine postE_bind (ihRefType st1 h1) (fun el st2 _ ht2 => ?_)
          have h2 := TermSyn.of_eq ht2 h1
          refine postE_bind (expectT_post .bracketR st2 h2) (fun b st3 _ _ => PostE.okSame st3 _)
        · exact postE_bind (parseNameP_post st1 h1) (fun n st2 _ _ => PostE.okSame st2 _)
      · have h2 := TermSyn.of_eq ht2 h1
        refine postE_bind (skipT_post .bang st2 h2) (fun b st3 _ ht3 => ?_)
        dsimp only
        split
        · exact PostE.okSame st3 _
        · exact PostE.okSame st3 _
    -- parseTypeDef
    · intro st hts
      simp only [parseTypeDef]
      split
      · exact postE_bind (ihObjCore st.last.start st hts) (fun a st1 _ _ => PostE.okSame st1 _)
      · split
        · exact postE_bind (ihItf st hts) (fun a st1 _ _ => PostE.okSame st1 _)
        · split
          · exact postE_bind (ihUnion st hts) (fun a st1 _ _ => PostE.okSame st1 _)
          · split
            · exact postE_bind (parseScalarTypeDef_post st hts) (fun a st1 _ _ => PostE.okSame st1 _)
            · split
              · exact postE_bind (ihEnum st hts) (fun a st1 _ _ => PostE.okSame st1 _)
              · split
                · exact postE_bind (ihInputObj st hts) (fun a st1 _ _ => PostE.okSame st1 _)
                · split
                  · exact postE_bind (ihExt st hts) (fun a st1 _ _ => PostE.okSame st1 _)
                  · exact PostE.errSyn st _ _
    -- parseObjTypeDefCore
    · intro s0 st hts
      simp only [parseObjTypeDefCore]
      refine postE_bind (expectKw_post "type" st hts) (fun k st1 _ ht1 => ?_)
      have h1 := TermSyn.of_eq ht1 hts
      refine postE_bind (parseNameP_post st1 h1) (fun n st2 _ ht2 => ?_)
      have h2 := TermSyn.of_eq ht2 h1
      refine postE_bind (ihImpl st2 h2) (fun ii st3 _ ht3 => ?_)
      have h3 := TermSyn.of_eq ht3 h2
      refine postE_bind (anyP_post _ _ _ (fun s h => ihFieldDef s h) f st3 h3)
        (fun fd st4 _ _ => PostE.okSame st4 _)
    -- parseImplementsInterfaces
    · intro st hts
      simp only [parseImplementsInterfaces]
      split
      · refine postE_bindS (advanceP_post st hts) (fun st1 _ ht1 => ?_)
        have h1 := TermSyn.of_eq ht1 hts
        refine postE_bind (parseNameP_post st1 h1) (fun n st2 _ ht2 => ?_)
        exact ihImplLoop [n] st2 (TermSyn.of_eq ht2 h1)
      · exact PostE.okSame st _
    -- implLoop
    · intro acc st hts
      simp only [implLoop]
      split
      · exact PostE.okSame st _
      · exact PostE.okSame st _
      · refine postE_bind (parseNameP_post st hts) (fun n st1 _ ht1 => ?_)
        exact ihImplLoop (acc ++ [n]) st1 (TermSyn.of_eq ht1 hts)
    -- parseFieldDefP
    · intro st hts
      simp only [parseFieldDefP]
      refine postE_bind (parseNameP_post st hts) (fun n st1 _ ht1 => ?_)
      have h1 := TermSyn.of_eq ht1 hts
      refine postE_bind (ihArgsDef st1 h1) (fun args st2 _ ht2 => ?_)
      have h2 := TermSyn.of_eq ht2 h1
      refine postE_bind (expectT_post .colon st2 h2) (fun c st3 _ ht3 => ?_)
      have h3 := TermSyn.of_eq ht3 h2
      refine postE_bind (ihRefType st3 h3) (fun rt st4 _ _ => PostE.okSame st4 _)
    -- parseArgumentsDef
    · intro st hts
      simp only [parseArgumentsDef]
      split
      · exact manyP_post _ _ _ (fun s h => ihInputVal s h) f st hts
      · exact PostE.okSame st _
    -- parseInputValueDef
    · intro st hts
      simp only [parseInputValueDef]
      refine postE_bind (parseNameP_post st hts) (fun n st1 _ ht1 => ?_)
      have h1 := TermSyn.of_eq ht1 hts
      refine postE_bind (expectT_post .colon st1 h1) (fun c st2 _ ht2 => ?_)
      have h2 := TermSyn.of_eq ht2 h1
      refine postE_bind (ihRefType st2 h2) (fun rt st3 _ ht3 => ?_)
      have h3 := TermSyn.of_eq ht3 h2
      refine postE_bind (skipT_post .equals st3 h3) (fun q st4 _ ht4 => ?_)
      have h4 := TermSyn.of_eq ht4 h3
      dsimp only
      refine postE_bind ?_ (fun dv st5 _ _ => PostE.okSame st5 _)
      split
      · exact postE_bind (ihVal true st4 h4) (fun w st5 _ _ => PostE.okSame st5 _)
      · exact PostE.okSame st4 _
    -- parseInterfaceTypeDef
    · intro st hts
      simp only [parseInterfaceTypeDef]
      refine postE_bind (expectKw_post "interface" st hts) (fun k st1 _ ht1 => ?_)
      have h1 := TermSyn.of_eq ht1 hts
      refine postE_bind (parseNameP_post st1 h1) (fun n st2 _ ht2 => ?_)
      have h2 := TermSyn.of_eq ht2 h1
      refine postE_bind (anyP_post _ _ _ (fun s h => ihFieldDef s h) f st2 h2)
        (fun fd st3 _ _ => PostE.okSame st3 _)
    -- parseUnionTypeDef
    · intro st hts
      simp only [parseUnionTypeDef]
      refine postE_bind (expectKw_post "union" st hts) (fun k st1 _ ht1 => ?_)
      have h1 := TermSyn.of_eq ht1 hts
      refine postE_bind (parseNameP_post st1 h1) (fun n st2 _ ht2 => ?_)
      have h2 := TermSyn.of_eq ht2 h1
      refine postE_bind (expectT_post .equals st2 h2) (fun e st3 _ ht3 => ?_)
      have h3 := TermSyn.of_eq ht3 h2
      refine postE_bind (ihUnionMembers st3 h3) (fun ms st4 _ _ => PostE.okSame st4 _)
    -- parseUnionMembers
    · intro st hts
      simp only [parseUnionMembers]
      refine postE_bind (parseNameP_post st hts) (fun n st1 _ ht1 => ?_)
      have h1 := TermSyn.of_eq ht1 hts
      refine postE_bind (skipT_post .pipe st1 h1) (fun q st2 _ ht2 => ?_)
      have h2 := TermSyn.of_eq ht2 h1
      dsimp only
      split
      · refine postE_bind (ihUnionMembers st2 h2) (fun ms st3 _ _ => PostE.okSame st3 _)
      · exact PostE.okSame st2 _
    -- parseEnumTypeDef
    · intro st hts
      simp only [parseEnumTypeDef]
      refine postE_bind (expectKw_post "enum" st hts) (fun k st1 _ ht1 => ?_)
      have h1 := TermSyn.of_eq ht1 hts
      refine postE_bind (parseNameP_post st1 h1) (fun n st2 _ ht2 => ?_)
      have h2 := TermSyn.of_eq ht2 h1
      refine postE_bind (manyP_post _ _ _ (fun s h => parseNameP_post s h) f st2 h2)
        (fun vs st3 _ _ => PostE.okSame st3 _)
    -- parseInputObjTypeDef
    · intro st hts
      simp only [parseInputObjTypeDef]
      refine postE_bind (expectKw_post "input" st hts) (fun k st1 _ ht1 => ?_)
      have h1 := TermSyn.of_eq ht1 hts
      refine postE_bind (parseNameP_post st1 h1) (fun n st2 _ ht2 => ?_)
      have h2 := TermSyn.of_eq ht2 h1
      refine postE_bind (anyP_post _ _ _ (fun s h => ihInputVal s h) f st2 h2)
        (fun fd st3 _ _ => PostE.okSame st3 _)
    -- parseTypeExtDef
    · intro st hts
      simp only [parseTypeExtDef]
      refine postE_bind (expectKw_post "extend" st hts) (fun k st1 _ ht1 => ?_)
      exact ihObjCore st.last.start st1 (TermSyn.of_eq ht1 hts)

theorem initParse_err (fuel : Nat) (p : List Token × Term)
    (hterm : ∀ e, p.2 = .lexErr e → isSyn e) :
    ∀ e, initParse fuel p = .err e → okBare e := by
  intro e h
  unfold initParse at h
  cases hts : p.1 with
  | cons t rest =>
    rw [hts] at h
    refine ((parser_postE fuel).1 { toks := rest, term := p.2, prevEnd := 0, last := t }
      (fun e' he' => hterm e' he')).1 e h
  | nil =>
    rw [hts] at h
    cases htm : p.2 with
    | eofRepeat t =>
      rw [htm] at h
      refine ((parser_postE fuel).1 { toks := [], term := .eofRepeat t, prevEnd := 0, last := t }
        (fun e' he' => by rw [htm] at hterm; exact hterm e' he')).1 e h
    | lexErr e' =>
      rw [htm] at h
      cases h
      exact Or.inl (hterm _ htm)
    | fuelOut =>
      rw [htm] at h
      exact PR.noConfusion h

/-- C3 (amended): every error either entry point returns is a
SyntaxError — carrying an absolute rune-offset position and a message —
except for a variable appearing in const position, which is the bare
positionless error "variable may not be constant". -/
theorem C3_error_taxonomy_amended :
    (∀ (s : String) (e : GErr), ParseString s = .err e →
      isSyn e ∨ e = .bare "variable may not be constant") ∧
    (∀ (s : String) (e : GErr), ParseReader s = .err e →
      isSyn e ∨ e = .bare "variable may not be constant") := by
  constructor
  · intro s e h
    unfold ParseString at h
    generalize hl : lexAll (lexFuel s.length) (mkLexer (Scn.str (mkStrScn s.data))) = p at h
    cases hx : initParse (parseFuel s.length) p with
    | more => rw [hx] at h; exact PR.noConfusion h
    | ok r =>
      rw [hx] at h
      simp only [PR.bind_ok] at h
      exact PR.noConfusion h
    | err e' =>
      rw [hx] at h
      simp only [PR.bind_err, PR.err.injEq] at h
      subst h
      exact initParse_err _ p (fun e2 he2 => by
        have := lexAll_term_syn (lexFuel s.length) (mkLexer (Scn.str (mkStrScn s.data))) e2
        rw [hl] at this
        exact this he2) e' hx
  · intro s e h
    unfold ParseReader at h
    generalize hl : lexAll (lexFuel s.length) (mkLexer (Scn.buf (mkBufScn s.data))) = p at h
    cases hx : initParse (parseFuel s.length) p with
    | more => rw [hx] at h; exact PR.noConfusion h
    | ok r =>
      rw [hx] at h
      simp only [PR.bind_ok] at h
      exact PR.noConfusion h
    | err e' =>
      rw [hx] at h
      simp only [PR.bind_err, PR.err.injEq] at h
      subst h
      exact initParse_err _ p (fun e2 he2 => by
        have := lexAll_term_syn (lexFuel s.length) (mkLexer (Scn.buf (mkBufScn s.data))) e2
        rw [hl] at this
        exact this he2) e' hx

set_option maxHeartbeats 3200000 in
/-- C3 witness: the amended taxonomy applied to the concrete parse
`query($v:int=$w){a}`, whose error is the bare const-variable error. -/
theorem C3_witness :
    isSyn (GErr.bare "variable may not be constant") ∨
      GErr.bare "variable may not be constant" = GErr.bare "variable may not be constant" :=
  C3_error_taxonomy_amended.1 "query($v:int=$w){a}"
    (GErr.bare "variable may not be constant") (by rfl)

/-! ### Claims -/

set_option maxHeartbeats 3200000 in
/-- C1: parse-from-text and parse-from-stream do NOT return structurally
equal documents for every source: on `"{a }"` both succeed, but the
string scanner's tail excludes the rune that terminated the name while the
buffered scanner's tail includes it, so the field's name is `"a"` in one
document and `"a "` in the other.  This evaluates the code at the failing
input of the code-bug report. -/
theorem C1_string_vs_reader_divergence :
    firstFieldNames (ParseString "{a }") = some ["a"] ∧
    firstFieldNames (ParseReader "{a }") = some ["a "] := ⟨rfl, rfl⟩

/-- C2 counterexample: the claim fails on the code in three places.  The
whole input `"0"` does not lex as Int `"0"` but errors at offset 1 (EOF
right after `0`, as the repository's own test expects); the whole input
`"-123.4"` lexes as a Float token whose `End`/`Value` were never assigned
(the decimal stage returns early at EOF), so `Value` is `""` rather than
`"-123.4"`; and `"1.x"` shows an empty digit run after `.` is not a
SyntaxError — it lexes as Float `"1."`. -/
theorem C2_counterexample :
    errPos (lexFirst "0") = some 1 ∧
    lexFirst "-123.4" = .ok { kind := .floatK, start := 0, endP := 0, value := "" } ∧
    lexFirst "1.x" = .ok { kind := .floatK, start := 0, endP := 1, value := "1." } :=
  ⟨rfl, rfl, rfl⟩

/-- C2 (amended): number lexing as implemented.  `-` followed by EOF
errors at the current offset; integer part `0` must be followed by a
non-digit rune (a digit after `0` errors, and EOF right after `0` also
errors at the current offset); a digit run after `.` is consumed but not
required to be non-empty; after `E`/`e` a sign or digit is required (else
SyntaxError at the current offset); when a token ends at a non-digit
terminator its Value is the exact source substring, but when the decimal
stage (or the rune right after `E`/`e`) hits EOF the token is returned
with `End`/`Value` unassigned (zero/empty on a fresh token).  Concretely:
`"0"` and `"01"` and `"-"` fail at offset 1, `"1ea"` fails at offset 2,
`"7"` lexes as Int `"7"`, `"-123.4 "` as Float `"-123.4"`, `"-123.4"` as a
Float with empty Value, `"1.x"` as Float `"1."`, `"-1.2e34 "` as Float
`"-1.2e34"`. -/
theorem C2_number_lexing_amended :
    errPos (lexFirst "0") = some 1 ∧
    errPos (lexFirst "01") = some 1 ∧
    errPos (lexFirst "-") = some 1 ∧
    errPos (lexFirst "1ea") = some 2 ∧
    lexFirst "7" = .ok { kind := .intK, start := 0, endP := 0, value := "7" } ∧
    lexFirst "-123.4 " = .ok { kind := .floatK, start := 0, endP := 5, value := "-123.4" } ∧
    lexFirst "-123.4" = .ok { kind := .floatK, start := 0, endP := 0, value := "" } ∧
    lexFirst "1.x" = .ok { kind := .floatK, start := 0, endP := 1, value := "1." } ∧
    lexFirst "-1.2e34 " = .ok { kind := .floatK, start := 0, endP := 6, value := "-1.2e34" } :=
  ⟨rfl, rfl, rfl, rfl, rfl, rfl, rfl, rfl, rfl⟩

set_option maxHeartbeats 3200000 in
/-- C3 counterexample: a variable in const position (the default value of
a variable definition) is reported through `errors.New("variable may not
be constant")` — a bare, positionless error, not a SyntaxError. -/
theorem C3_counterexample :
    isBareErr (ParseString "query($v:int=$w){a}") = true ∧
    isSynErr (ParseString "query($v:int=$w){a}") = false := ⟨rfl, rfl⟩

/-- C4: the code is wrong where the claim requires a decoding failure to
be an error distinct from end-of-input.  Because `stringScanner.Scan`
checks the dead variable `n` (always 0), any decode yielding
`utf8.RuneError` is reported as `io.EOF`: on source `[0xFF]` (an invalid
byte) the very first `Scan` reports end-of-input although `lastIndex = 0`
is before the true end (length 1); a genuine U+FFFD character
(`EF BF BD`) is also reported as end-of-input even though it decodes
validly; an ordinary valid code point such as `C3 A1` (U+00E1) decodes
correctly. -/
theorem C4_invalid_utf8_as_eof :
    (StrScnB.scan (mkStrScnB [0xFF])).2 = false ∧
    (mkStrScnB [0xFF]).lastIndex = 0 ∧
    (mkStrScnB [0xFF]).source.length = 1 ∧
    utf8Decode [0xC3, 0xA1] = (0xE1, 2) ∧
    utf8Decode [0xEF, 0xBF, 0xBD] = (0xFFFD, 3) ∧
    (StrScnB.scan (mkStrScnB [0xEF, 0xBF, 0xBD])).2 = false :=
  ⟨rfl, rfl, rfl, rfl, rfl, rfl⟩

set_option maxHeartbeats 1600000 in
/-- C5: parsing `"{a,b}"` yields a document with span [0,5], exactly one
definition — an unnamed Query operation — whose selection set holds the
two fields `a` (span [1,1]) and `b` (span [3,3]). -/
theorem C5_parse_a_b :
    ParseString "{a,b}" = .ok
      { loc := { start := 0, endP := 5 },
        definitions := [.op
          { loc := { start := 0, endP := 5 }, opType := .query, name := zeroName,
            varDefs := [], directives := [],
            selectionSet := .mk { start := 0, endP := 5 }
              [.field (.mk { start := 1, endP := 1 } zeroName
                 { loc := { start := 1, endP := 1 }, value := "a" } [] [] zeroSelSet),
               .field (.mk { start := 3, endP := 3 } zeroName
                 { loc := { start := 3, endP := 3 }, value := "b" } [] [] zeroSelSet)] }] } := rfl

set_option maxHeartbeats 3200000 in
/-- C7: one-or-more bracketed contexts reject an immediately closed pair
while zero-or-more contexts accept it: `"query(){a}"` (VariableDefinitions)
and `"enum E{}"` fail with a SyntaxError, while object-type bodies,
interface bodies, input-object bodies and object values accept `"{}"`
with zero elements. -/
theorem C7_bracket_arity :
    isSynErr (ParseString "query(){a}") = true ∧
    isSynErr (ParseString "enum E{}") = true ∧
    firstObjFieldDefs (ParseString "type T{}") = some [] ∧
    firstItfFieldDefs (ParseString "interface I{}") = some [] ∧
    firstInputFields (ParseString "input I{}") = some [] ∧
    firstArgValue (ParseString "{f(a:{})}") = some (.objV { start := 5, endP := 7 } []) :=
  ⟨rfl, rfl, rfl, rfl, rfl, rfl⟩

set_option maxHeartbeats 3200000 in
/-- C9: in value position the Name `true`/`false` produces a Boolean
node, a Name other than `true`/`false`/`null` produces an Enum node, and
the Name `null` produces the generic SyntaxError at the token's start —
universally over parser states and const-ness, plus concrete documents
(so a document containing the value `null` fails to parse). -/
theorem C9_value_name_dispatch :
    (∀ (f : Nat) (c : Bool) (st : PState), st.last.kind = .nameK → st.last.value = "null" →
      parseValueLiteral (f+1) c st =
        .err (.syntaxErr st.last.start "unexpected kind; expected value")) ∧
    firstArgValue (ParseString "{a(b:true)}") = some (.boolV { start := 5, endP := 8 } true) ∧
    firstArgValue (ParseString "{a(b:false)}") = some (.boolV { start := 5, endP := 9 } false) ∧
    firstArgValue (ParseString "{a(b:yes)}") = some (.enumV { start := 5, endP := 7 } "yes") ∧
    errPos (ParseString "{a(b:null)}") = some 5 := by
  refine ⟨?_, rfl, rfl, rfl, rfl⟩
  intro f c st h1 h2
  simp only [parseValueLiteral, h1, h2]
  simp

theorem advance_lastIndex (l : Lexer) : l.advance.lastIndex = l.lastIndex + 1 := rfl

/-- `readU4` only moves the lexer forward, and any error it reports is
positioned strictly after the position it started from. -/
theorem readU4_bounds : ∀ (k : Nat) (l : Lexer) (acc : List Char),
    (∀ cs l', readU4 k l acc = .ok (cs, l') → l.lastIndex ≤ l'.lastIndex) ∧
    (∀ p m, readU4 k l acc = .err (.syntaxErr p m) → l.lastIndex < p) := by
  intro k
  induction k with
  | zero =>
    intro l acc
    constructor
    · intro cs l' h
      simp only [readU4] at h
      cases h
      exact Nat.le_refl _
    · intro p m h
      exact PR.noConfusion h
  | succ k ih =>
    intro l acc
    constructor
    · intro cs l' h
      simp only [readU4] at h
      split at h
      · exact PR.noConfusion h
      · have := (ih l.advance (acc ++ [l.advance.rune])).1 cs l' h
        have h2 : l.lastIndex < l.advance.lastIndex := by rw [advance_lastIndex]; omega
        omega
    · intro p m h
      simp only [readU4] at h
      split at h
      · cases h
        rw [advance_lastIndex]
        omega
      · have := (ih l.advance (acc ++ [l.advance.rune])).2 p m h
        have h2 : l.lastIndex < l.advance.lastIndex := by rw [advance_lastIndex]; omega
        omega

set_option maxHeartbeats 1600000 in
/-- Every error produced by the string-reading loop is positioned strictly
after the lexer's position at entry. -/
theorem readStringLoop_err_pos : ∀ (f : Nat) (l : Lexer) (t : Token) (acc : List Char)
    (p : Nat) (m : String),
    readStringLoop f l t acc = .err (.syntaxErr p m) → l.lastIndex < p := by
  intro f
  induction f with
  | zero =>
    intro l t acc p m h
    exact PR.noConfusion h
  | succ f ih =>
    intro l t acc p m h
    have hlt : l.lastIndex < l.advance.lastIndex := by rw [advance_lastIndex]; omega
    have hlt2 : l.lastIndex < l.advance.advance.lastIndex := by
      rw [advance_lastIndex, advance_lastIndex]; omega
    simp only [readStringLoop] at h
    split at h
    · cases h; exact hlt
    · split at h
      · exact PR.noConfusion h
      · split at h
        · cases h; exact hlt
        · split at h
          · exact Nat.lt_trans hlt (ih _ _ _ _ _ h)
          · split at h
            · exact Nat.lt_trans hlt2 (ih _ _ _ _ _ h)
            · split at h
              · cases hu : readU4 4 l.advance.advance [] with
                | more => rw [hu] at h; exact PR.noConfusion h
                | err e =>
                  rw [hu] at h
                  simp only [PR.bind_err] at h
                  cases h
                  have := (readU4_bounds 4 l.advance.advance []).2 p m hu
                  omega
                | ok q =>
                  rw [hu] at h
                  simp only [PR.bind_ok] at h
                  have hle := (readU4_bounds 4 l.advance.advance []).1 q.1 q.2 hu
                  split at h
                  · cases h
                    omega
                  · have := ih _ _ _ _ _ h
                    omega
              · cases h
                exact hlt2

/-- C8: lexing the six-character escape `\u00E1` inside quotes yields a
String token with decoded value `á` (span [0,7] as in the repository's
test); the unterminated/invalid-string errors at the positions the tests
expect; and universally, every `readString` error is positioned strictly
after the lexer's entry position — which is the offset of the opening
quote — so the error is never reported at the opening quote. -/
theorem C8_string_decode_and_error_position :
    lexFirst "\"\\u00E1\"" = .ok { kind := .strK, start := 0, endP := 7, value := "á" } ∧
    errPos (lexFirst "\"") = some 1 ∧
    errPos (lexFirst "\"\n") = some 1 ∧
    errPos (lexFirst "\"ab") = some 3 ∧
    (∀ (f : Nat) (l : Lexer) (t : Token) (p : Nat) (m : String),
      readString f l t = .err (.syntaxErr p m) → l.lastIndex < p) := by
  refine ⟨rfl, rfl, rfl, rfl, ?_⟩
  intro f l t p m h
  unfold readString at h
  exact readStringLoop_err_pos f _ _ _ p m h

/-- C8 witness: the universal part applied to the concrete unterminated
string `"` (the lexer sits on the opening quote at offset 0, the error is
at offset 1). -/
theorem C8_witness :
    (mkLexer (Scn.str (mkStrScn ("\"".data)))).lastIndex < 1 :=
  C8_string_decode_and_error_position.2.2.2.2 17
    (mkLexer (Scn.str (mkStrScn ("\"".data)))) zeroToken 1
    ("unterminated string " ++ String.mk []) (by rfl)

/-- C9 witness: the universally quantified null case at a concrete state. -/
theorem C9_witness :
    parseValueLiteral 5 true
      { toks := [], term := .eofRepeat zeroToken, prevEnd := 0,
        last := { kind := .nameK, start := 5, endP := 8, value := "null" } } =
      .err (.syntaxErr 5 "unexpected kind; expected value") :=
  C9_value_name_dispatch.1 4 true
    { toks := [], term := .eofRepeat zeroToken, prevEnd := 0,
      last := { kind := .nameK, start := 5, endP := 8, value := "null" } } rfl rfl

end Gql
